import Mathlib

/-! State-proof verification: a shallow embedding of `stateproof.go` and
`signaturefile.go`.

The Go functions `Verify`, `performStateProof`, `verifySignatures` and
`verifySignature` of `stateproof.go` and the decoders `NewSignatureFile`,
`readBody`, `NewV2SignatureFile` and `NewV5SignatureFile` of `signaturefile.go`
are embedded as Lean functions.

* A Go `string` is a Lean `String`, a Go `[]byte` is a `List Nat` of byte values.
* A Go `map[string]V` is an association list; a `range` loop over it visits the
  entries in the order of the list, so a statement about every list covers every
  iteration order the runtime may choose.
* A Go function body either returns or panics: `Go α`.
* A `*bytes.Reader` is the list of its unread bytes; a read returns an error or
  its result together with the bytes left unread.
* The standard-library calls (`x509.ParsePKIXPublicKey`, `sha512.Sum384`,
  `rsa.VerifyPKCS1v15`) are the fields of a `Crypto` parameter; the parsers of
  the `parser` and `types` packages that `Verify` calls are the fields of a
  `Parsers` parameter; the constants and the readers `NewStream`, `NewHash` and
  `reader.LengthAndBytes` that the decoders call are the fields of `Constants`
  and `Readers`, and `specReaders` gives the readers as the specification
  describes them.
-/

namespace Stateproof

/-! ## Results, errors, maps -/

/-- The outcome of running a Go function body: it returns a value or it panics. -/
inductive Go (α : Type) where
  | ret : α → Go α
  | panic : Go α
  deriving DecidableEq, Repr

/-- The error values that reach the callers of this package. The first four are
the sentinels of `internal/errors` used in `stateproof.go`, the next three those
used in `signaturefile.go`; `EOF` and `ErrUnexpectedEOF` are the errors of the
`io` package; `Truncated` and `LengthOutOfBounds` are the two failures the
specification gives for the readers of the `reader` package; `other` stands for
any other error produced by a library or by a parser. -/
inductive Error where
  | ErrorVerifySignature
  | ErrorVerifyMetadataSignature
  | ErrorHashesNotMatch
  | ErrorTransactionNotFound
  | ErrorInvalidSignatureFileType
  | ErrorUnexpectedSignatureFileTypeDelimiter
  | ErrorExtraDataInSignatureFile
  | EOF
  | ErrUnexpectedEOF
  | Truncated
  | LengthOutOfBounds
  | other (msg : String)
  deriving DecidableEq, Repr

deriving instance DecidableEq for Except

/-- Reading a Go map `m[k]`: the stored value, or the zero value of the element
type when the key is absent. -/
def mapGet {V : Type} (m : List (String × V)) (zero : V) (k : String) : V :=
  (m.lookup k).getD zero

/-- Writing a Go map `m[k] = v`. -/
def mapSet {V : Type} (m : List (String × V)) (k : String) (v : V) : List (String × V) :=
  (k, v) :: m

/-! ## `encoding/hex` -/

/-- The table `hextable` of `encoding/hex`. -/
def hextable : String := "0123456789abcdef"

/-- The two hex digits of one byte: `hextable[v>>4]`, `hextable[v&0x0f]`. -/
def hexByte (v : Nat) : List Char :=
  [hextable.data.getD (v % 256 / 16) '0', hextable.data.getD (v % 16) '0']

/-- The function `hex.EncodeToString`. -/
def hexEncodeToString (src : List Nat) : String :=
  String.mk (src.flatMap hexByte)

/-- The value of one hex digit (`reverseHexTable`), `none` for any other character. -/
def fromHexChar (c : Char) : Option Nat :=
  if 48 ≤ c.toNat ∧ c.toNat ≤ 57 then some (c.toNat - 48)
  else if 97 ≤ c.toNat ∧ c.toNat ≤ 102 then some (c.toNat - 87)
  else if 65 ≤ c.toNat ∧ c.toNat ≤ 70 then some (c.toNat - 55)
  else none

/-- The loop of `hex.Decode`: pairs of hex digits become bytes; an invalid digit
or a dangling last digit is an error. -/
def hexDecodeChars : List Char → Except Error (List Nat)
  | [] => .ok []
  | [p] =>
    match fromHexChar p with
    | none => .error (.other "encoding/hex: invalid byte")
    | some _ => .error (.other "encoding/hex: odd length hex string")
  | p :: q :: rest =>
    match fromHexChar p, fromHexChar q with
    | some a, some b =>
      match hexDecodeChars rest with
      | .ok bs => .ok ((a * 16 + b) :: bs)
      | .error e => .error e
    | _, _ => .error (.other "encoding/hex: invalid byte")

/-- The function `hex.DecodeString`. -/
def hexDecodeString (s : String) : Except Error (List Nat) :=
  hexDecodeChars s.data

/-! ## The cryptographic library -/

/-- What `x509.ParsePKIXPublicKey` hands back on success: an `*rsa.PublicKey`,
or a key of another algorithm (`*dsa.PublicKey`, `*ecdsa.PublicKey`,
`ed25519.PublicKey`, ...). -/
inductive PublicKey (K : Type) where
  | rsa : K → PublicKey K
  | nonRsa : PublicKey K

/-- The standard-library functions called by `verifySignature`. -/
structure Crypto where
  /-- The type `rsa.PublicKey`. -/
  RsaKey : Type
  /-- `x509.ParsePKIXPublicKey`. -/
  ParsePKIXPublicKey : List Nat → Except Error (PublicKey RsaKey)
  /-- `sha512.Sum384`. -/
  Sum384 : List Nat → List Nat
  /-- `rsa.VerifyPKCS1v15` with `crypto.SHA384`: `none` is the nil error. -/
  VerifyPKCS1v15 : RsaKey → List Nat → List Nat → Option Error

/-! ## `verifySignature` -/

/-- The function `verifySignature` (stateproof.go, lines 97-115). The type
assertion `pk.(*rsa.PublicKey)` has no `ok` result, so it panics on a key that
is not an RSA key. -/
def verifySignature (cr : Crypto) (publicKeyString : String) (hash sig : List Nat) : Go Bool :=
  match hexDecodeString publicKeyString with
  | .error _ => .ret false
  | .ok pkBytes =>
    match cr.ParsePKIXPublicKey pkBytes with
    | .error _ => .ret false
    | .ok pk =>
      let hashedHash := cr.Sum384 hash
      match pk with
      | .nonRsa => .panic
      | .rsa k =>
        match cr.VerifyPKCS1v15 k hashedHash sig with
        | some _ => .ret false
        | none => .ret true

/-! ## `verifySignatures` -/

/-- The type `types.Stream` embedded in `types.SignatureFile`; `BodyLength` is
its only field used in the sources at hand. -/
structure Stream where
  BodyLength : Nat
  deriving DecidableEq, Repr

/-- The type `types.SignatureFile`. `MetadataHash` is `none` for a nil slice; for
the other slices nil and empty behave alike. The map handed to
`verifySignatures` holds pointers to such values; a nil pointer is not part of
the model. -/
structure SignatureFile where
  Stream : Stream := { BodyLength := 0 }
  Hash : List Nat
  Signature : List Nat
  Version : Int
  MetadataHash : Option (List Nat)
  MetadataSignature : List Nat
  deriving DecidableEq, Repr

/-- The local variables of `verifySignatures` that live across loop iterations. -/
structure LoopState where
  verifiedSigs : List (String × List String)
  consensusHash : String
  maxHashCount : Nat
  deriving DecidableEq, Repr

/-- The state before the loop (lines 65-67). -/
def initState : LoopState :=
  { verifiedSigs := [], consensusHash := "", maxHashCount := 0 }

/-- How one iteration of the `range` loop ends. -/
inductive LoopResult where
  | next : LoopState → LoopResult
  | returned : String × Option Error → LoopResult
  | panicked : LoopResult
  deriving DecidableEq, Repr

/-- Lines 79-86: record the node under its hex hash and update the tracked hash. -/
def tally (st : LoopState) (nodeId : String) (sigFile : SignatureFile) : LoopState :=
  let hexHash := hexEncodeToString sigFile.Hash
  let verifiedSigs := mapSet st.verifiedSigs hexHash (mapGet st.verifiedSigs [] hexHash ++ [nodeId])
  let nodesCount := (mapGet verifiedSigs [] hexHash).length
  if nodesCount > 1 ∧ nodesCount > st.maxHashCount then
    { verifiedSigs := verifiedSigs, consensusHash := hexHash, maxHashCount := nodesCount }
  else
    { verifiedSigs := verifiedSigs, consensusHash := st.consensusHash,
      maxHashCount := st.maxHashCount }

/-- The body of the `range` loop (lines 70-86) for one map entry. -/
def loopBody (cr : Crypto) (nodeIdPubKeyPairs : List (String × String)) (st : LoopState)
    (entry : String × SignatureFile) : LoopResult :=
  let nodeId := entry.1
  let sigFile := entry.2
  let pubKey := mapGet nodeIdPubKeyPairs "" nodeId
  match verifySignature cr pubKey sigFile.Hash sigFile.Signature with
  | .panic => .panicked
  | .ret false => .returned ("", some .ErrorVerifySignature)
  | .ret true =>
    match sigFile.MetadataHash with
    | none => .next (tally st nodeId sigFile)
    | some metadataHash =>
      match verifySignature cr pubKey metadataHash sigFile.MetadataSignature with
      | .panic => .panicked
      | .ret false => .returned ("", some .ErrorVerifyMetadataSignature)
      | .ret true => .next (tally st nodeId sigFile)

/-- The `range` loop (lines 69-87) over the entries in iteration order. -/
def rangeLoop (cr : Crypto) (nodeIdPubKeyPairs : List (String × String)) :
    List (String × SignatureFile) → LoopState → LoopResult
  | [], st => .next st
  | entry :: rest, st =>
    match loopBody cr nodeIdPubKeyPairs st entry with
    | .next st' => rangeLoop cr nodeIdPubKeyPairs rest st'
    | .returned r => .returned r
    | .panicked => .panicked

/-- The conversion `float64(k)` of a Go `int`: the nearest value with a 53-bit
significand, ties to even. -/
def float64 (k : Int) : ℚ :=
  let a := k.natAbs
  if a < 2 ^ 53 then (k : ℚ)
  else
    let e := Nat.log2 a - 52
    let q := a / 2 ^ e
    let r := a % 2 ^ e
    let half := 2 ^ (e - 1)
    let m := if half < r ∨ (r = half ∧ q % 2 = 1) then q + 1 else q
    ((k.sign * ((m * 2 ^ e : Nat) : Int) : Int) : ℚ)

/-- The function `math.Ceil`: the least integer value not below `x`. -/
def mathCeil (x : ℚ) : ℚ := ((Int.ceil x : Int) : ℚ)

/-- The conversion `int(x)` of a `float64`: the fraction is discarded. Values
outside the range of `int` do not arise from a length divided by three. -/
def intOfFloat64 (x : ℚ) : Int :=
  if 0 ≤ x then Int.floor x else Int.ceil x

/-- Line 89: `int(math.Ceil(float64(len(signatureFiles) / 3)))`; the division is
the integer division of two `int`s. -/
def consensusSigs (len : Nat) : Int :=
  intOfFloat64 (mathCeil (float64 ((len : Int) / 3)))

/-- The function `verifySignatures` (lines 64-95); `signatureFiles` lists the
entries of the map in the order the `range` loop visits them. -/
def verifySignatures (cr : Crypto) (nodeIdPubKeyPairs : List (String × String))
    (signatureFiles : List (String × SignatureFile)) : Go (String × Option Error) :=
  match rangeLoop cr nodeIdPubKeyPairs signatureFiles initState with
  | .panicked => .panic
  | .returned r => .ret r
  | .next st =>
    if (st.maxHashCount : Int) ≥ consensusSigs signatureFiles.length then
      .ret (st.consensusHash, none)
    else
      .ret ("", none)

/-- The function `performStateProof` (lines 52-62). -/
def performStateProof (cr : Crypto) (nodeIdPubKeyPairs : List (String × String))
    (signatureFiles : List (String × SignatureFile)) (hash : String) : Go (Option Error) :=
  match verifySignatures cr nodeIdPubKeyPairs signatureFiles with
  | .panic => .panic
  | .ret (res, err) =>
    match err with
    | some e => .ret (some e)
    | none => if hash ≠ res then .ret (some .ErrorHashesNotMatch) else .ret none

/-! ## `Verify` -/

/-- The character class `[.@\-]` of the regular expression compiled in `Verify`. -/
def separatorClass (c : Char) : Bool :=
  c == '.' || c == '@' || c == '-'

/-- The call `regex.ReplaceAllString(src, repl)` for a regular expression that is
one character class and a replacement without `$`: every character of the class
is one match and is replaced by `repl`, the rest is copied. -/
def replaceAllString (cls : Char → Bool) (src repl : String) : String :=
  String.mk (src.data.flatMap fun c => if cls c then repl.data else [c])

/-- Lines 17-18 of `Verify`: the transaction id that is looked up. -/
def normalizeTxId (txId : String) : String :=
  replaceAllString separatorClass txId "_"

/-- The value `types.StateProof` returned by `types.NewStateProof`: the three
parts handed on to the parsers. -/
structure StateProof (A S R : Type) where
  AddressBooks : A
  SignatureFiles : S
  RecordFile : R

/-- The fields of the parsed record file read by `Verify`. The element type of
`TransactionsMap` is compared with `nil`; `none` is a stored nil value. -/
structure RecordFile (T : Type) where
  Hash : String
  TransactionsMap : List (String × Option T)

/-- The functions of the `types` and `parser` packages called by `Verify`; each
returns a value or an error. -/
structure Parsers where
  AddressBooks : Type
  SignatureFiles : Type
  RecordFileData : Type
  Transaction : Type
  /-- `types.NewStateProof`. -/
  NewStateProof : List Nat → Except Error (StateProof AddressBooks SignatureFiles RecordFileData)
  /-- `parser.ParseAddressBooks`. -/
  ParseAddressBooks : AddressBooks → Except Error (List (String × String))
  /-- `parser.ParseSignatureFiles`. -/
  ParseSignatureFiles : SignatureFiles → Except Error (List (String × SignatureFile))
  /-- `parser.ParseRecordFile`. -/
  ParseRecordFile : RecordFileData → Except Error (RecordFile Transaction)

/-- The function `Verify` (lines 16-50). -/
def Verify (cr : Crypto) (ps : Parsers) (txId : String) (payload : List Nat) :
    Go (Bool × Option Error) :=
  let txId := normalizeTxId txId
  match ps.NewStateProof payload with
  | .error err => .ret (false, some err)
  | .ok stateProof =>
    match ps.ParseAddressBooks stateProof.AddressBooks with
    | .error err => .ret (false, some err)
    | .ok nodeIdPairs =>
      match ps.ParseSignatureFiles stateProof.SignatureFiles with
      | .error err => .ret (false, some err)
      | .ok signatureFiles =>
        match ps.ParseRecordFile stateProof.RecordFile with
        | .error err => .ret (false, some err)
        | .ok recordFile =>
          match mapGet recordFile.TransactionsMap none txId with
          | none => .ret (false, some .ErrorTransactionNotFound)
          | some _ =>
            match performStateProof cr nodeIdPairs signatureFiles recordFile.Hash with
            | .panic => .panic
            | .ret (some err) => .ret (false, some err)
            | .ret none => .ret (true, none)

/-! ## `signaturefile.go` -/

/-- The constants of `internal/constants` named in `signaturefile.go`; their
declarations are outside the sources at hand, so they are parameters. -/
structure Constants where
  ByteSize : Nat
  IntSize : Nat
  Sha384Length : Nat
  Sha384WithRsaMaxLength : Nat
  Sha384WithRsaType : Nat
  SignatureFileV2Marker : Nat
  SignatureFileFormatV4 : Int
  SignatureFileFormatV5 : Int

set_option linter.dupNamespace false in
/-- The value returned by `NewHash`; `Hash` is its only field used here. -/
structure Hash where
  Hash : List Nat
  deriving DecidableEq, Repr

/-- The functions called by `signaturefile.go` whose bodies are outside the
sources at hand. Each takes the unread bytes of the `*bytes.Reader` and returns
an error or its result together with the bytes left unread. -/
structure Readers where
  /-- `NewStream(buffer)`. -/
  NewStream : List Nat → Except Error (Stream × List Nat)
  /-- `NewHash(buffer)`. -/
  NewHash : List Nat → Except Error (Hash × List Nat)
  /-- `reader.LengthAndBytes(buffer, a, b, flag)`: the returned `*uint32`, the
  returned bytes, and the bytes left unread. -/
  LengthAndBytes : List Nat → Nat → Nat → Bool → Except Error ((Nat × List Nat) × List Nat)

/-- The call `io.ReadFull(buffer, p)` with `len(p) = n`, as made by `binary.Read`:
nothing is read for `n = 0`; otherwise an empty reader gives `io.EOF`, fewer
than `n` bytes give `io.ErrUnexpectedEOF`. -/
def readFull (buffer : List Nat) (n : Nat) : Except Error (List Nat × List Nat) :=
  if n = 0 then .ok ([], buffer)
  else
    match buffer with
    | [] => .error .EOF
    | _ :: _ =>
      if buffer.length < n then .error .ErrUnexpectedEOF
      else .ok (buffer.take n, buffer.drop n)

/-- The value of a byte sequence read with `binary.BigEndian`. -/
def bigEndian (bs : List Nat) : Nat :=
  bs.foldl (fun acc b => acc * 256 + b % 256) 0

/-- The call `binary.Read(buffer, binary.BigEndian, &x)` for `x` of type `uint32`. -/
def readUint32 (buffer : List Nat) : Except Error (Nat × List Nat) :=
  match readFull buffer 4 with
  | .error err => .error err
  | .ok (bs, rest) => .ok (bigEndian bs, rest)

/-- The call `buffer.Read(p)` of `*bytes.Reader` with `p` a fresh slice of `n`
zero bytes: `io.EOF` on an empty reader; otherwise as many bytes as are there,
at most `n`, are copied to the front of `p`, and no error is returned. -/
def readerRead (buffer : List Nat) (n : Nat) : Except Error (List Nat × List Nat) :=
  match buffer with
  | [] => .error .EOF
  | _ :: _ => .ok (buffer.take n ++ List.replicate (n - buffer.length) 0, buffer.drop n)

/-- The call `buffer.ReadByte()`. -/
def readByte : List Nat → Except Error (Nat × List Nat)
  | [] => .error .EOF
  | b :: rest => .ok (b, rest)

/-- The method `SignatureFile.readBody` (signaturefile.go, lines 39-59): the
body length, the receiver with its `Signature` set, and the bytes left. -/
def readBody (rd : Readers) (c : Constants) (sf : SignatureFile) (buffer : List Nat) :
    Except Error ((Nat × SignatureFile) × List Nat) :=
  match readUint32 buffer with
  | .error err => .error err
  | .ok (sigFileType, buffer) =>
    if sigFileType ≠ c.Sha384WithRsaType then .error .ErrorInvalidSignatureFileType
    else
      match rd.LengthAndBytes buffer c.ByteSize c.Sha384WithRsaMaxLength true with
      | .error err => .error err
      | .ok ((length, b), buffer) =>
        let finalLength := (length + c.IntSize) % 2 ^ 32
        .ok ((finalLength, { sf with Signature := b }), buffer)

/-- The function `NewSignatureFile` (lines 20-37). -/
def NewSignatureFile (rd : Readers) (c : Constants) (buffer : List Nat) :
    Except Error (SignatureFile × List Nat) :=
  match rd.NewStream buffer with
  | .error err => .error err
  | .ok (stream, buffer) =>
    let signatureFile : SignatureFile :=
      { Stream := stream, Hash := [], Signature := [], Version := 0, MetadataHash := none,
        MetadataSignature := [] }
    match readBody rd c signatureFile buffer with
    | .error err => .error err
    | .ok ((bodyLength, signatureFile), buffer) =>
      .ok ({ signatureFile with Stream := { BodyLength := bodyLength } }, buffer)

/-- The function `NewV2SignatureFile` (lines 61-94). -/
def NewV2SignatureFile (rd : Readers) (c : Constants) (buffer : List Nat) :
    Except Error (SignatureFile × List Nat) :=
  match readerRead buffer c.Sha384Length with
  | .error err => .error err
  | .ok (hash, buffer) =>
    match readByte buffer with
    | .error err => .error err
    | .ok (signatureMarker, buffer) =>
      if signatureMarker ≠ c.SignatureFileV2Marker then
        .error .ErrorUnexpectedSignatureFileTypeDelimiter
      else
        match rd.LengthAndBytes buffer c.ByteSize c.Sha384WithRsaMaxLength false with
        | .error err => .error err
        | .ok ((_, signature), buffer) =>
          if buffer.length ≠ 0 then .error .ErrorExtraDataInSignatureFile
          else
            .ok ({ Stream := { BodyLength := 0 }, Hash := hash, Signature := signature,
                   Version := c.SignatureFileFormatV4, MetadataHash := none,
                   MetadataSignature := [] }, buffer)

/-- The function `NewV5SignatureFile` (lines 96-139). The slice in the `Hash`
returned by `NewHash` is taken to be non-nil. -/
def NewV5SignatureFile (rd : Readers) (c : Constants) (buffer : List Nat) :
    Except Error (SignatureFile × List Nat) :=
  match readFull buffer c.IntSize with
  | .error err => .error err
  | .ok (_, buffer) =>
    match rd.NewHash buffer with
    | .error err => .error err
    | .ok (hash, buffer) =>
      match NewSignatureFile rd c buffer with
      | .error err => .error err
      | .ok (signatureFile, buffer) =>
        match rd.NewHash buffer with
        | .error err => .error err
        | .ok (metadataHash, buffer) =>
          match NewSignatureFile rd c buffer with
          | .error err => .error err
          | .ok (metadataSigFile, buffer) =>
            if buffer.length ≠ 0 then .error .ErrorExtraDataInSignatureFile
            else
              .ok ({ Stream := { BodyLength := 0 }, Hash := hash.Hash,
                     Signature := signatureFile.Signature,
                     Version := c.SignatureFileFormatV5,
                     MetadataHash := some metadataHash.Hash,
                     MetadataSignature := metadataSigFile.Signature }, buffer)

/-! ## The readers as the specification describes them -/

/-- Modelled from the spec: `reader.LengthAndBytes`, whose body is outside the
sources at hand. It reads a length field of `lengthFieldSize` bytes (big-endian,
unsigned), fails with `LengthOutOfBounds` when the declared length exceeds
`maxLength`, then reads that many payload bytes; it fails with `Truncated` when
the length field or the payload is cut short. The returned count is the payload
length, with the size of the length field added when `includesField` is set. -/
def specLengthAndBytes (buffer : List Nat) (lengthFieldSize maxLength : Nat)
    (includesField : Bool) : Except Error ((Nat × List Nat) × List Nat) :=
  if buffer.length < lengthFieldSize then .error .Truncated
  else
    let declared := bigEndian (buffer.take lengthFieldSize)
    let rest := buffer.drop lengthFieldSize
    if maxLength < declared then .error .LengthOutOfBounds
    else if rest.length < declared then .error .Truncated
    else
      let consumed := if includesField then lengthFieldSize + declared else declared
      .ok ((consumed % 2 ^ 32, rest.take declared), rest.drop declared)

/-- Modelled from the spec: `NewStream`, whose body is outside the sources at
hand. The specification has the legacy decoder start with the type tag, so
nothing is read and the stream has body length zero. -/
def specNewStream (buffer : List Nat) : Except Error (Stream × List Nat) :=
  .ok ({ BodyLength := 0 }, buffer)

/-- Modelled from the spec: `NewHash`, whose body is outside the sources at
hand. It decodes a fixed-size hash block: exactly `hashLength` bytes, with
`Truncated` when fewer remain. -/
def specNewHash (hashLength : Nat) (buffer : List Nat) : Except Error (Hash × List Nat) :=
  if buffer.length < hashLength then .error .Truncated
  else .ok ({ Hash := buffer.take hashLength }, buffer.drop hashLength)

/-- Modelled from the spec: the three readers above, as the functions that
`signaturefile.go` calls. -/
def specReaders (c : Constants) : Readers where
  NewStream := specNewStream
  NewHash := specNewHash c.Sha384Length
  LengthAndBytes := specLengthAndBytes

/-! ## A small cryptographic library for evaluating the definitions -/

/-- An instance of `Crypto` small enough to compute with: a public key is the
two bytes `0x30 k`, the single byte `0x31` is a key of another algorithm, the
digest of a message is the message, and the signature of a digest under key `k`
is `k` followed by the digest. Empty input is not a key, as for the DER parser. -/
def demoCrypto : Crypto where
  RsaKey := Nat
  ParsePKIXPublicKey := fun der =>
    match der with
    | [48, k] => .ok (.rsa k)
    | [49] => .ok .nonRsa
    | _ => .error (.other "x509: failed to parse public key")
  Sum384 := fun msg => msg
  VerifyPKCS1v15 := fun k hashed sig =>
    if sig = k :: hashed then none else some (.other "crypto/rsa: verification error")

/-- A signature artifact without metadata whose signature is valid under
`demoCrypto` for key byte `k`. -/
def demoFile (k : Nat) (hash : List Nat) : SignatureFile :=
  { Hash := hash, Signature := k :: hash, Version := 4, MetadataHash := none,
    MetadataSignature := [] }

/-- The public-key map of ten nodes with key bytes 1 to 10 under `demoCrypto`. -/
def demoKeys : List (String × String) :=
  [("0.0.3", "3001"), ("0.0.4", "3002"), ("0.0.5", "3003"), ("0.0.6", "3004"),
   ("0.0.7", "3005"), ("0.0.8", "3006"), ("0.0.9", "3007"), ("0.0.10", "3008"),
   ("0.0.11", "3009"), ("0.0.12", "300a")]

/-- Ten artifacts, all valid for `demoKeys`, split 4/3/3 over the hashes `01`,
`02` and `03`. -/
def demoSigs10 : List (String × SignatureFile) :=
  [("0.0.3", demoFile 1 [2]), ("0.0.4", demoFile 2 [1]), ("0.0.5", demoFile 3 [3]),
   ("0.0.6", demoFile 4 [1]), ("0.0.7", demoFile 5 [2]), ("0.0.8", demoFile 6 [3]),
   ("0.0.9", demoFile 7 [1]), ("0.0.10", demoFile 8 [2]), ("0.0.11", demoFile 9 [3]),
   ("0.0.12", demoFile 10 [1])]

/-- Six artifacts, all valid for `demoKeys`: two nodes attest to the hash `01`,
the other four to four different hashes. -/
def demoSigs6 : List (String × SignatureFile) :=
  [("0.0.3", demoFile 1 [1]), ("0.0.4", demoFile 2 [1]), ("0.0.5", demoFile 3 [2]),
   ("0.0.6", demoFile 4 [3]), ("0.0.7", demoFile 5 [4]), ("0.0.8", demoFile 6 [5])]

/-- Two artifacts: node `0.0.3` has a key in `demoKeys` and a valid signature,
node `0.0.99` has no entry in `demoKeys`. -/
def demoSigsUnknownNode : List (String × SignatureFile) :=
  [("0.0.3", demoFile 1 [10]), ("0.0.99", demoFile 2 [10])]

/-- Parsers that ignore the bytes of a non-empty payload and hand back fixed
values: the keys `demoKeys`, the artifacts `demoSigs10` and a record file with
hash `01` holding the single transaction `0_0_100_1614556800_123456789`. -/
def demoParsers : Parsers where
  AddressBooks := List Nat
  SignatureFiles := List Nat
  RecordFileData := List Nat
  Transaction := Unit
  NewStateProof := fun payload =>
    if payload = [] then .error (.other "empty payload")
    else .ok { AddressBooks := payload, SignatureFiles := payload, RecordFile := payload }
  ParseAddressBooks := fun _ => .ok demoKeys
  ParseSignatureFiles := fun _ => .ok demoSigs10
  ParseRecordFile := fun _ =>
    .ok { Hash := "01", TransactionsMap := [("0_0_100_1614556800_123456789", some ())] }

/-- Nine artifacts, all valid for `demoKeys`, split 3/3/3 over the hashes `01`,
`02` and `03`, the three with hash `01` first. -/
def demoSigs9 : List (String × SignatureFile) :=
  [("0.0.3", demoFile 1 [1]), ("0.0.4", demoFile 2 [1]), ("0.0.5", demoFile 3 [1]),
   ("0.0.6", demoFile 4 [2]), ("0.0.7", demoFile 5 [2]), ("0.0.8", demoFile 6 [2]),
   ("0.0.9", demoFile 7 [3]), ("0.0.10", demoFile 8 [3]), ("0.0.11", demoFile 9 [3])]

/-- An artifact with hash `hash` and metadata hash `mh`, both signatures valid
under `demoCrypto` for key byte `k`. -/
def demoFileV5 (k : Nat) (hash mh : List Nat) : SignatureFile :=
  { Hash := hash, Signature := k :: hash, Version := 5, MetadataHash := some mh,
    MetadataSignature := k :: mh }

/-- Three artifacts with valid signatures for `demoKeys`: the first has no
metadata hash and a meaningless metadata signature, the second has a valid
metadata signature, the third a metadata signature that does not verify. -/
def demoSigsBadMetadata : List (String × SignatureFile) :=
  [("0.0.3", { demoFile 1 [1] with MetadataSignature := [9, 9] }),
   ("0.0.4", demoFileV5 2 [1] [7]),
   ("0.0.5", { demoFileV5 3 [1] [7] with MetadataSignature := [0] })]

/-- The parsers of `demoParsers` with an address book in which node `0.0.3`
has the key `31`, which `demoCrypto` parses as a key of another algorithm than
RSA, and with the two artifacts of nodes `0.0.3` and `0.0.4` for hash `01`. -/
def demoParsersNonRsa : Parsers :=
  { demoParsers with
    ParseAddressBooks := fun _ => .ok [("0.0.3", "31"), ("0.0.4", "3002")]
    ParseSignatureFiles := fun _ => .ok [("0.0.3", demoFile 1 [1]), ("0.0.4", demoFile 2 [1])] }

/-- Constants for evaluating the decoders: one-byte length fields, four-byte
integers, 48-byte hashes, signatures of at most 384 bytes, type tag 1, V2
marker 3, format versions 4 and 5. -/
def demoConstants : Constants :=
  { ByteSize := 1, IntSize := 4, Sha384Length := 48, Sha384WithRsaMaxLength := 384,
    Sha384WithRsaType := 1, SignatureFileV2Marker := 3, SignatureFileFormatV4 := 4,
    SignatureFileFormatV5 := 5 }

/-- The constants `demoConstants` with signatures of at most 96 bytes, a bound
that a one-byte length field can exceed. -/
def demoConstantsShort : Constants :=
  { demoConstants with Sha384WithRsaMaxLength := 96 }

/-- A hash block of 48 bytes, each equal to `b`. -/
def demoHashBlock (b : Nat) : List Nat := List.replicate 48 b

/-- A legacy signature block: type tag 1, length 3 and the three signature bytes
`7 8 9`. -/
def demoLegacyBlock : List Nat := [0, 0, 0, 1, 3, 7, 8, 9]

/-- A V2 signature file: 48 hash bytes `5`, the marker 3, length 2 and the two
signature bytes `7 8`. -/
def demoV2File : List Nat := demoHashBlock 5 ++ [3, 2, 7, 8]

/-- A V5 signature file: version tag, hash block of `5`s, legacy block, metadata
hash block of `6`s, legacy block. -/
def demoV5File : List Nat :=
  [0, 0, 0, 5] ++ demoHashBlock 5 ++ demoLegacyBlock ++ demoHashBlock 6 ++ demoLegacyBlock

/-! ## Vocabulary of the statements -/

/-- The number of artifacts of `sigs` whose hash, hex encoded, is `h`: the number
of nodes attesting to `h`. -/
def attestCount (h : String) (sigs : List (String × SignatureFile)) : Nat :=
  sigs.countP fun e => hexEncodeToString e.2.Hash == h

/-- The artifact `e` passes the signature check of its node's key and, when it
has a metadata hash, the metadata-signature check. -/
def Passes (cr : Crypto) (keys : List (String × String)) (e : String × SignatureFile) : Prop :=
  verifySignature cr (mapGet keys "" e.1) e.2.Hash e.2.Signature = .ret true ∧
  match e.2.MetadataHash with
  | none => True
  | some mh => verifySignature cr (mapGet keys "" e.1) mh e.2.MetadataSignature = .ret true

instance (cr : Crypto) (keys : List (String × String)) (e : String × SignatureFile) :
    Decidable (Passes cr keys e) := by
  unfold Passes
  cases e.2.MetadataHash <;> exact inferInstance

/-- The loop state after tallying every artifact of `sigs` from `st` on. -/
def tallyAll (st : LoopState) (sigs : List (String × SignatureFile)) : LoopState :=
  sigs.foldl (fun s e => tally s e.1 e.2) st

/-- The invariant of the `range` loop once the artifacts `processed` have been
tallied: the map holds one node per artifact under each hex hash, no hash has
more nodes than the tracked maximum, and the tracked hash is the first one whose
running count reached that maximum. -/
structure Inv (processed : List (String × SignatureFile)) (st : LoopState) : Prop where
  counts : ∀ h, (mapGet st.verifiedSigs [] h).length = attestCount h processed
  bound : ∀ h, attestCount h processed ≤ max st.maxHashCount 1
  tracked : (st.maxHashCount = 0 ∧ st.consensusHash = "") ∨
    (2 ≤ st.maxHashCount ∧ attestCount st.consensusHash processed = st.maxHashCount ∧
      ∃ pre x post, processed = pre ++ x :: post ∧
        hexEncodeToString x.2.Hash = st.consensusHash ∧
        attestCount st.consensusHash (pre ++ [x]) = st.maxHashCount ∧
        ∀ h, attestCount h pre < st.maxHashCount)

/-- A reader is local when unread bytes appended behind its input change neither
its success nor its result and are left unread. -/
def Local {α : Type} (R : List Nat → Except Error (α × List Nat)) : Prop :=
  ∀ s t v rest, R s = .ok (v, rest) → R (s ++ t) = .ok (v, rest ++ t)

/-! ## Lemmas on maps and on the loop -/

theorem mapGet_mapSet {V : Type} (m : List (String × V)) (zero : V) (k k' : String) (v : V) :
    mapGet (mapSet m k v) zero k' = if k' = k then v else mapGet m zero k' := by
  unfold mapGet mapSet
  by_cases h : k' = k
  · subst h
    simp [List.lookup]
  · have hb : (k' == k) = false := by simpa using h
    simp [List.lookup, hb, h]

theorem attestCount_append (h : String) (l₁ l₂ : List (String × SignatureFile)) :
    attestCount h (l₁ ++ l₂) = attestCount h l₁ + attestCount h l₂ := by
  unfold attestCount
  exact List.countP_append _ l₁ l₂

theorem attestCount_singleton (h : String) (e : String × SignatureFile) :
    attestCount h [e] = if hexEncodeToString e.2.Hash = h then 1 else 0 := by
  unfold attestCount
  by_cases hh : hexEncodeToString e.2.Hash = h <;> simp [List.countP_cons, hh]

theorem attestCount_le_length (h : String) (l : List (String × SignatureFile)) :
    attestCount h l ≤ l.length := by
  unfold attestCount
  exact List.countP_le_length _

theorem attestCount_perm (h : String) {l₁ l₂ : List (String × SignatureFile)}
    (hp : l₁.Perm l₂) : attestCount h l₁ = attestCount h l₂ := by
  unfold attestCount
  exact hp.countP_eq _

theorem attestCount_pos (h : String) (l : List (String × SignatureFile))
    (hpos : 0 < attestCount h l) : ∃ e ∈ l, hexEncodeToString e.2.Hash = h := by
  unfold attestCount at hpos
  obtain ⟨e, he, heq⟩ := List.countP_pos_iff.mp hpos
  exact ⟨e, he, by simpa using heq⟩

theorem attestCount_le_of_hashes (l : List (String × SignatureFile)) (k : Nat)
    (hk : ∀ H : List Nat, attestCount (hexEncodeToString H) l ≤ k) (h : String) :
    attestCount h l ≤ k := by
  by_cases hpos : 0 < attestCount h l
  · obtain ⟨e, _, heq⟩ := attestCount_pos h l hpos
    rw [← heq]
    exact hk e.2.Hash
  · omega

theorem hexDigit_injective : ∀ i j : Fin 16,
    hextable.data.getD i.val '0' = hextable.data.getD j.val '0' → i = j := by
  decide

theorem hexByte_injective (a b : Nat) (ha : a < 256) (hb : b < 256)
    (h : hexByte a = hexByte b) : a = b := by
  unfold hexByte at h
  rw [Nat.mod_eq_of_lt ha, Nat.mod_eq_of_lt hb] at h
  simp only [List.cons.injEq, and_true] at h
  have h1 := hexDigit_injective ⟨a / 16, by omega⟩ ⟨b / 16, by omega⟩ h.1
  have h2 := hexDigit_injective ⟨a % 16, by omega⟩ ⟨b % 16, by omega⟩ h.2
  simp only [Fin.mk.injEq] at h1 h2
  omega

theorem hexEncodeToString_injective (xs ys : List Nat) (hx : ∀ b ∈ xs, b < 256)
    (hy : ∀ b ∈ ys, b < 256) (h : hexEncodeToString xs = hexEncodeToString ys) : xs = ys := by
  unfold hexEncodeToString at h
  have hl : xs.flatMap hexByte = ys.flatMap hexByte := by injection h
  clear h
  induction xs generalizing ys with
  | nil =>
    cases ys with
    | nil => rfl
    | cons b ys => simp [hexByte] at hl
  | cons a xs ih =>
    cases ys with
    | nil => simp [hexByte] at hl
    | cons b ys =>
      have ha : a < 256 := hx a (List.mem_cons_self _ _)
      have hb : b < 256 := hy b (List.mem_cons_self _ _)
      simp only [List.flatMap_cons, hexByte, List.cons_append, List.nil_append,
        List.cons.injEq] at hl
      obtain ⟨h1, h2, h3⟩ := hl
      have hab : a = b := hexByte_injective a b ha hb (by unfold hexByte; rw [h1, h2])
      have hrest : xs = ys :=
        ih ys (fun x hx' => hx x (List.mem_cons_of_mem _ hx'))
          (fun y hy' => hy y (List.mem_cons_of_mem _ hy')) h3
      rw [hab, hrest]

theorem attestCount_hex_eq (H : List Nat) (l : List (String × SignatureFile))
    (hH : ∀ b ∈ H, b < 256) (hl : ∀ e ∈ l, ∀ b ∈ e.2.Hash, b < 256) :
    attestCount (hexEncodeToString H) l = l.countP fun e => e.2.Hash == H := by
  unfold attestCount
  apply List.countP_congr
  intro e he
  simp only [beq_iff_eq]
  constructor
  · exact fun h => hexEncodeToString_injective _ _ (hl e he) hH h
  · exact fun h => by rw [h]

theorem loopBody_of_passes (cr : Crypto) (keys : List (String × String)) (st : LoopState)
    (e : String × SignatureFile) (hp : Passes cr keys e) :
    loopBody cr keys st e = .next (tally st e.1 e.2) := by
  obtain ⟨h1, h2⟩ := hp
  unfold loopBody
  simp only [h1]
  cases hm : e.2.MetadataHash with
  | none => rfl
  | some mh =>
    rw [hm] at h2
    simp only [h2]

theorem rangeLoop_of_passes (cr : Crypto) (keys : List (String × String))
    (sigs : List (String × SignatureFile)) (st : LoopState)
    (hall : ∀ e ∈ sigs, Passes cr keys e) :
    rangeLoop cr keys sigs st = .next (tallyAll st sigs) := by
  induction sigs generalizing st with
  | nil => rfl
  | cons e rest ih =>
    have he : Passes cr keys e := hall e (List.mem_cons_self _ _)
    have hrest : ∀ x ∈ rest, Passes cr keys x := fun x hx => hall x (List.mem_cons_of_mem _ hx)
    simp only [rangeLoop, loopBody_of_passes cr keys st e he, tallyAll, List.foldl_cons]
    exact ih _ hrest

theorem tallyAll_append (st : LoopState) (l₁ l₂ : List (String × SignatureFile)) :
    tallyAll st (l₁ ++ l₂) = tallyAll (tallyAll st l₁) l₂ := by
  unfold tallyAll
  exact List.foldl_append _ _ _ _

theorem inv_init : Inv [] initState := by
  refine ⟨?_, ?_, Or.inl ⟨rfl, rfl⟩⟩
  · intro h
    simp [initState, mapGet, attestCount]
  · intro h
    simp [attestCount]

theorem inv_step (l : List (String × SignatureFile)) (st : LoopState)
    (e : String × SignatureFile) (hinv : Inv l st) : Inv (l ++ [e]) (tally st e.1 e.2) := by
  obtain ⟨hc, hb, ht⟩ := hinv
  have hcounts : ∀ h, (mapGet (mapSet st.verifiedSigs (hexEncodeToString e.2.Hash)
      (mapGet st.verifiedSigs [] (hexEncodeToString e.2.Hash) ++ [e.1])) [] h).length
      = attestCount h (l ++ [e]) := by
    intro h
    rw [mapGet_mapSet, attestCount_append, attestCount_singleton]
    by_cases hh : h = hexEncodeToString e.2.Hash
    · subst hh
      simp [hc]
    · have hh' : ¬ hexEncodeToString e.2.Hash = h := fun h' => hh h'.symm
      simp [hh, hh', hc]
  have hnew : attestCount (hexEncodeToString e.2.Hash) (l ++ [e])
      = attestCount (hexEncodeToString e.2.Hash) l + 1 := by
    rw [attestCount_append, attestCount_singleton]
    simp
  have hmono : ∀ h, attestCount h (l ++ [e]) ≤ attestCount h l + 1 := by
    intro h
    rw [attestCount_append, attestCount_singleton]
    split_ifs <;> omega
  have hother : ∀ h, h ≠ hexEncodeToString e.2.Hash →
      attestCount h (l ++ [e]) = attestCount h l := by
    intro h hh
    rw [attestCount_append, attestCount_singleton]
    have hh' : ¬ hexEncodeToString e.2.Hash = h := fun h' => hh h'.symm
    simp [hh']
  unfold tally
  simp only [hcounts (hexEncodeToString e.2.Hash)]
  split_ifs with hcond
  · -- the tracked hash changes to the hash of `e`
    obtain ⟨h1, h2⟩ := hcond
    refine ⟨hcounts, ?_, Or.inr ⟨h1, rfl, l, e, [], rfl, rfl, rfl, ?_⟩⟩
    · intro h
      have := hb h
      have := hmono h
      simp only [ge_iff_le, le_max_iff]
      by_cases hh : h = hexEncodeToString e.2.Hash
      · subst hh
        left
        exact le_refl _
      · rw [hother h hh]
        rcases le_max_iff.mp (hb h) with h3 | h3 <;> omega
    · intro h
      show attestCount h l < attestCount (hexEncodeToString e.2.Hash) (l ++ [e])
      rcases le_max_iff.mp (hb h) with h3 | h3 <;> omega
  · -- the tracked hash stays
    have hk : attestCount (hexEncodeToString e.2.Hash) (l ++ [e]) ≤ 1 ∨
        attestCount (hexEncodeToString e.2.Hash) (l ++ [e]) ≤ st.maxHashCount := by
      by_contra hcon
      push_neg at hcon
      exact hcond ⟨hcon.1, hcon.2⟩
    refine ⟨hcounts, ?_, ?_⟩
    · intro h
      show attestCount h (l ++ [e]) ≤ max st.maxHashCount 1
      by_cases hh : h = hexEncodeToString e.2.Hash
      · subst hh
        exact le_max_iff.mpr (Or.symm hk)
      · rw [hother h hh]
        exact hb h
    · rcases ht with ⟨h0, hs⟩ | ⟨h2, hcnt, pre, x, post, hsplit, hx, hpre, hlt⟩
      · exact Or.inl ⟨h0, hs⟩
      · right
        have hne : st.consensusHash ≠ hexEncodeToString e.2.Hash := by
          intro heq
          rw [← heq] at hk hnew
          omega
        refine ⟨h2, ?_, pre, x, post ++ [e], ?_, hx, hpre, hlt⟩
        · show attestCount st.consensusHash (l ++ [e]) = st.maxHashCount
          rw [hother _ hne]
          exact hcnt
        · rw [hsplit]
          simp

theorem inv_tallyAll (l rest : List (String × SignatureFile)) (st : LoopState)
    (hinv : Inv l st) : Inv (l ++ rest) (tallyAll st rest) := by
  induction rest generalizing l st with
  | nil => simpa [tallyAll] using hinv
  | cons e rest ih =>
    have h1 := ih (l ++ [e]) (tally st e.1 e.2) (inv_step l st e hinv)
    simpa [tallyAll] using h1

theorem inv_final (sigs : List (String × SignatureFile)) :
    Inv sigs (tallyAll initState sigs) := by
  simpa using inv_tallyAll [] sigs initState inv_init

theorem float64_roundtrip (k : Nat) (h : k < 2 ^ 53) :
    intOfFloat64 (mathCeil (float64 (k : Int))) = (k : Int) := by
  have hf : float64 (k : Int) = ((k : Int) : ℚ) := by
    unfold float64
    simp only [Int.natAbs_ofNat, h, if_true]
  rw [hf]
  unfold mathCeil intOfFloat64
  rw [Int.ceil_intCast]
  have hnn : (0 : ℚ) ≤ (((k : Int)) : ℚ) := by exact_mod_cast Nat.zero_le k
  rw [if_pos hnn, Int.floor_intCast]

theorem consensusSigs_eq (len : Nat) (h : len < 2 ^ 53) :
    consensusSigs len = ((len / 3 : Nat) : Int) := by
  have hdiv : ((len : Int) / 3) = ((len / 3 : Nat) : Int) := by norm_cast
  have hlt : len / 3 < 2 ^ 53 := lt_of_le_of_lt (Nat.div_le_self len 3) h
  unfold consensusSigs
  rw [hdiv]
  exact float64_roundtrip _ hlt

theorem verifySignatures_of_passes (cr : Crypto) (keys : List (String × String))
    (sigs : List (String × SignatureFile)) (hlen : sigs.length < 2 ^ 53)
    (hall : ∀ e ∈ sigs, Passes cr keys e) :
    verifySignatures cr keys sigs =
      if sigs.length / 3 ≤ (tallyAll initState sigs).maxHashCount then
        .ret ((tallyAll initState sigs).consensusHash, none)
      else .ret ("", none) := by
  unfold verifySignatures
  rw [rangeLoop_of_passes cr keys sigs initState hall, consensusSigs_eq _ hlen]
  simp only [ge_iff_le, Nat.cast_le]

theorem rangeLoop_signature_failure (cr : Crypto) (keys : List (String × String))
    (l : List (String × SignatureFile)) (st : LoopState)
    (hall : ∀ e ∈ l, Passes cr keys e ∨
      verifySignature cr (mapGet keys "" e.1) e.2.Hash e.2.Signature = .ret false)
    (hex : ∃ e ∈ l, verifySignature cr (mapGet keys "" e.1) e.2.Hash e.2.Signature = .ret false) :
    rangeLoop cr keys l st = .returned ("", some .ErrorVerifySignature) := by
  induction l generalizing st with
  | nil =>
    obtain ⟨e, he, _⟩ := hex
    cases he
  | cons a rest ih =>
    rcases hall a (List.mem_cons_self _ _) with hp | hf
    · have hnf : verifySignature cr (mapGet keys "" a.1) a.2.Hash a.2.Signature ≠ .ret false := by
        rw [hp.1]
        decide
      simp only [rangeLoop, loopBody_of_passes cr keys st a hp]
      apply ih
      · intro e he
        exact hall e (List.mem_cons_of_mem _ he)
      · obtain ⟨e, he, hfe⟩ := hex
        rcases List.mem_cons.mp he with heq | hmem
        · subst heq
          exact absurd hfe hnf
        · exact ⟨e, hmem, hfe⟩
    · simp only [rangeLoop, loopBody, hf]

theorem verifySignature_empty_key (cr : Crypto) (hash sig : List Nat)
    (hder : ∃ err, cr.ParsePKIXPublicKey [] = .error err) :
    verifySignature cr "" hash sig = .ret false := by
  obtain ⟨err, herr⟩ := hder
  have hdec : hexDecodeString "" = .ok [] := rfl
  simp only [verifySignature, hdec, herr]

theorem loopBody_cases (cr : Crypto) (keys : List (String × String)) (st : LoopState)
    (e : String × SignatureFile) :
    (Passes cr keys e ∧ loopBody cr keys st e = .next (tally st e.1 e.2)) ∨
    loopBody cr keys st e = .returned ("", some .ErrorVerifySignature) ∨
    loopBody cr keys st e = .returned ("", some .ErrorVerifyMetadataSignature) ∨
    loopBody cr keys st e = .panicked := by
  cases h1 : verifySignature cr (mapGet keys "" e.1) e.2.Hash e.2.Signature with
  | panic => simp [loopBody, h1]
  | ret b =>
    cases b with
    | false => simp [loopBody, h1]
    | true =>
      cases hm : e.2.MetadataHash with
      | none => simp [loopBody, Passes, h1, hm]
      | some mh =>
        cases h2 : verifySignature cr (mapGet keys "" e.1) mh e.2.MetadataSignature with
        | panic => simp [loopBody, h1, hm, h2]
        | ret b2 => cases b2 <;> simp [loopBody, Passes, h1, hm, h2]

theorem rangeLoop_next (cr : Crypto) (keys : List (String × String))
    (l : List (String × SignatureFile)) (st st' : LoopState)
    (h : rangeLoop cr keys l st = .next st') :
    (∀ e ∈ l, Passes cr keys e) ∧ st' = tallyAll st l := by
  induction l generalizing st with
  | nil =>
    simp only [rangeLoop, LoopResult.next.injEq] at h
    simp [tallyAll, h]
  | cons a rest ih =>
    rcases loopBody_cases cr keys st a with ⟨hp, hb⟩ | hb | hb | hb
    · simp only [rangeLoop, hb] at h
      obtain ⟨h1, h2⟩ := ih _ h
      refine ⟨?_, ?_⟩
      · intro e he
        rcases List.mem_cons.mp he with heq | hmem
        · rw [heq]; exact hp
        · exact h1 e hmem
      · simpa [tallyAll] using h2
    · simp [rangeLoop, hb] at h
    · simp [rangeLoop, hb] at h
    · simp [rangeLoop, hb] at h

theorem rangeLoop_returned (cr : Crypto) (keys : List (String × String))
    (l : List (String × SignatureFile)) (st : LoopState) (r : String × Option Error)
    (h : rangeLoop cr keys l st = .returned r) :
    r = ("", some .ErrorVerifySignature) ∨ r = ("", some .ErrorVerifyMetadataSignature) := by
  induction l generalizing st with
  | nil => simp [rangeLoop] at h
  | cons a rest ih =>
    rcases loopBody_cases cr keys st a with ⟨_, hb⟩ | hb | hb | hb
    · simp only [rangeLoop, hb] at h
      exact ih _ h
    · simp only [rangeLoop, hb, LoopResult.returned.injEq] at h
      exact Or.inl h.symm
    · simp only [rangeLoop, hb, LoopResult.returned.injEq] at h
      exact Or.inr h.symm
    · simp [rangeLoop, hb] at h

theorem verifySignatures_ok_inv (cr : Crypto) (keys : List (String × String))
    (sigs : List (String × SignatureFile)) (res : String)
    (hret : verifySignatures cr keys sigs = .ret (res, none)) :
    (∀ e ∈ sigs, Passes cr keys e) ∧
      rangeLoop cr keys sigs initState = .next (tallyAll initState sigs) := by
  unfold verifySignatures at hret
  cases hloop : rangeLoop cr keys sigs initState with
  | panicked => simp [hloop] at hret
  | returned r =>
    simp only [hloop, Go.ret.injEq] at hret
    rcases rangeLoop_returned cr keys sigs initState r hloop with hr | hr <;>
      · rw [hr] at hret
        simp at hret
  | next st =>
    obtain ⟨h1, h2⟩ := rangeLoop_next cr keys sigs initState st hloop
    exact ⟨h1, by rw [h2]⟩

theorem verifySignatures_of_passes_raw (cr : Crypto) (keys : List (String × String))
    (sigs : List (String × SignatureFile)) (hall : ∀ e ∈ sigs, Passes cr keys e) :
    verifySignatures cr keys sigs =
      if ((tallyAll initState sigs).maxHashCount : Int) ≥ consensusSigs sigs.length then
        .ret ((tallyAll initState sigs).consensusHash, none)
      else .ret ("", none) := by
  unfold verifySignatures
  rw [rangeLoop_of_passes cr keys sigs initState hall]

theorem tracked_empty_of_no_repeat (sigs : List (String × SignatureFile))
    (hsingle : ∀ H : List Nat, attestCount (hexEncodeToString H) sigs ≤ 1) :
    (tallyAll initState sigs).maxHashCount = 0 ∧ (tallyAll initState sigs).consensusHash = "" := by
  obtain ⟨_, _, ht⟩ := inv_final sigs
  rcases ht with h0 | ⟨hM, hcnt, _⟩
  · exact h0
  · have := attestCount_le_of_hashes sigs 1 hsingle (tallyAll initState sigs).consensusHash
    omega

/-! ## The claims -/

/-- C1: if one artifact's signature fails verification against its node's key
while every other artifact passes its signature check and, when it has a
metadata hash, its metadata check, then `verifySignatures` returns
`ErrorVerifySignature` with an empty hash, in every processing order of the
artifacts; no consensus result is computed from the remaining nodes. -/
theorem verifySignatures_bad_signature_fails (cr : Crypto) (keys : List (String × String))
    (sigs : List (String × SignatureFile)) (bad : String × SignatureFile)
    (hmem : bad ∈ sigs)
    (hbad : verifySignature cr (mapGet keys "" bad.1) bad.2.Hash bad.2.Signature = .ret false)
    (hothers : ∀ e ∈ sigs, e ≠ bad → Passes cr keys e)
    (order : List (String × SignatureFile)) (hperm : order.Perm sigs) :
    verifySignatures cr keys order = .ret ("", some .ErrorVerifySignature) := by
  have hloop : rangeLoop cr keys order initState = .returned ("", some .ErrorVerifySignature) := by
    apply rangeLoop_signature_failure
    · intro e he
      by_cases heq : e = bad
      · right
        rw [heq]
        exact hbad
      · left
        exact hothers e (hperm.mem_iff.mp he) heq
    · exact ⟨bad, hperm.mem_iff.mpr hmem, hbad⟩
  simp only [verifySignatures, hloop]

/-- Witness for C1: five valid artifacts and a sixth whose signature has one bit
flipped, processed in reverse order. -/
theorem verifySignatures_bad_signature_fails_witness :
    verifySignatures demoCrypto demoKeys
        (List.reverse (demoSigs6.take 5 ++
          [("0.0.8", { demoFile 6 [1] with Signature := [7, 1] })])) =
      .ret ("", some .ErrorVerifySignature) :=
  verifySignatures_bad_signature_fails demoCrypto demoKeys
    (demoSigs6.take 5 ++ [("0.0.8", { demoFile 6 [1] with Signature := [7, 1] })])
    ("0.0.8", { demoFile 6 [1] with Signature := [7, 1] })
    (by decide) (by decide) (by decide) _ (List.reverse_perm _)

/-- Counterexample to C2: node `0.0.99` has no entry in the public-key map and
the only artifact whose node has a key verifies, yet `verifySignatures` returns
`ErrorVerifySignature` in both processing orders. -/
theorem verifySignatures_unknown_node_not_skipped :
    demoKeys.lookup "0.0.99" = none ∧
    Passes demoCrypto demoKeys ("0.0.3", demoFile 1 [10]) ∧
    verifySignatures demoCrypto demoKeys demoSigsUnknownNode
      = .ret ("", some .ErrorVerifySignature) ∧
    verifySignatures demoCrypto demoKeys demoSigsUnknownNode.reverse
      = .ret ("", some .ErrorVerifySignature) := by
  decide

/-- C2, amended: a node id of the signature-artifact map with no entry in the
public-key map is not skipped. Its key is read as the empty string, which the
key parser rejects, so when every artifact whose node has a key passes its
checks, `verifySignatures` returns `ErrorVerifySignature` in every processing
order. -/
theorem verifySignatures_unknown_node_fails (cr : Crypto) (keys : List (String × String))
    (sigs : List (String × SignatureFile))
    (hder : ∃ err, cr.ParsePKIXPublicKey [] = .error err)
    (unknown : String × SignatureFile) (hmem : unknown ∈ sigs)
    (hnokey : keys.lookup unknown.1 = none)
    (hknown : ∀ e ∈ sigs, keys.lookup e.1 ≠ none → Passes cr keys e)
    (order : List (String × SignatureFile)) (hperm : order.Perm sigs) :
    verifySignatures cr keys order = .ret ("", some .ErrorVerifySignature) := by
  have hfail : ∀ e : String × SignatureFile, keys.lookup e.1 = none →
      verifySignature cr (mapGet keys "" e.1) e.2.Hash e.2.Signature = .ret false := by
    intro e he
    have hkey : mapGet keys "" e.1 = "" := by simp [mapGet, he]
    rw [hkey]
    exact verifySignature_empty_key cr _ _ hder
  have hloop : rangeLoop cr keys order initState = .returned ("", some .ErrorVerifySignature) := by
    apply rangeLoop_signature_failure
    · intro e he
      by_cases hk : keys.lookup e.1 = none
      · exact Or.inr (hfail e hk)
      · exact Or.inl (hknown e (hperm.mem_iff.mp he) hk)
    · exact ⟨unknown, hperm.mem_iff.mpr hmem, hfail unknown hnokey⟩
  simp only [verifySignatures, hloop]

/-- Witness for C2, amended: the two artifacts of `demoSigsUnknownNode`, the
unknown node processed last. -/
theorem verifySignatures_unknown_node_fails_witness :
    verifySignatures demoCrypto demoKeys demoSigsUnknownNode
      = .ret ("", some .ErrorVerifySignature) :=
  verifySignatures_unknown_node_fails demoCrypto demoKeys demoSigsUnknownNode
    ⟨_, rfl⟩ ("0.0.99", demoFile 2 [10]) (by decide) (by decide) (by decide) _
    (List.Perm.refl _)

/-- C3: when all `n` artifacts verify, one hash `H` is attested by `c ≥ 2` nodes,
every other hash by strictly fewer than `c` nodes, and `c ≥ n / 3` (integer
division), then `verifySignatures` returns the hex encoding of `H` and no error
in every processing order. The number of artifacts is below `2 ^ 53`, the range
in which `float64` holds every integer exactly. -/
theorem verifySignatures_unique_maximum_wins (cr : Crypto) (keys : List (String × String))
    (sigs : List (String × SignatureFile)) (H : List Nat) (c : Nat)
    (hlen : sigs.length < 2 ^ 53)
    (hall : ∀ e ∈ sigs, Passes cr keys e)
    (hc : attestCount (hexEncodeToString H) sigs = c) (h2 : 2 ≤ c)
    (hothers : ∀ H' : List Nat, hexEncodeToString H' ≠ hexEncodeToString H →
      attestCount (hexEncodeToString H') sigs < c)
    (hthr : sigs.length / 3 ≤ c)
    (order : List (String × SignatureFile)) (hperm : order.Perm sigs) :
    verifySignatures cr keys order = .ret (hexEncodeToString H, none) := by
  have hlen' : order.length < 2 ^ 53 := by rw [hperm.length_eq]; exact hlen
  have hall' : ∀ e ∈ order, Passes cr keys e := fun e he => hall e (hperm.mem_iff.mp he)
  obtain ⟨_, hb, ht⟩ := inv_final order
  rw [verifySignatures_of_passes cr keys order hlen' hall']
  have hcH : attestCount (hexEncodeToString H) order = c := by
    rw [attestCount_perm _ hperm]; exact hc
  have hbH := hb (hexEncodeToString H)
  rcases ht with ⟨h0, _⟩ | ⟨hM, hcnt, _, x, _, _, hx, _, _⟩
  · rw [h0] at hbH
    simp at hbH
    omega
  · have hMc : c ≤ (tallyAll initState order).maxHashCount := by
      rcases le_max_iff.mp hbH with h3 | h3 <;> omega
    have heq : (tallyAll initState order).consensusHash = hexEncodeToString H := by
      by_contra hne
      rw [← hx] at hne hcnt
      have := hothers x.2.Hash hne
      rw [← attestCount_perm _ hperm, hcnt] at this
      omega
    rw [hperm.length_eq, if_pos (le_trans hthr hMc), heq]

/-- Witness for C3: ten artifacts split 4/3/3 return the hash `01` of the four,
here processed in reverse order. -/
theorem verifySignatures_unique_maximum_wins_witness :
    verifySignatures demoCrypto demoKeys demoSigs10.reverse = .ret ("01", none) :=
  verifySignatures_unique_maximum_wins demoCrypto demoKeys demoSigs10 [1] 4
    (by decide) (by decide) (by decide) (by decide)
    (by
      intro H' hne
      generalize hexEncodeToString H' = h at hne ⊢
      have hne' : ¬ ("01" = h) := fun h' => hne h'.symm
      by_cases h02 : "02" = h
      · subst h02
        decide
      · by_cases h03 : "03" = h
        · subst h03
          decide
        · have e1 : hexEncodeToString [1] = "01" := by decide
          have e2 : hexEncodeToString [2] = "02" := by decide
          have e3 : hexEncodeToString [3] = "03" := by decide
          simp [attestCount, demoSigs10, demoFile, List.countP_cons, e1, e2, e3, hne', h02, h03])
    (by decide) _ (List.reverse_perm _)

/-- Counterexample to C4: six verifying artifacts of which exactly two attest to
the hash `01`; `verifySignatures` returns `01`, and three times two is not more
than six. -/
theorem verifySignatures_consensus_at_one_third :
    (∀ e ∈ demoSigs6, Passes demoCrypto demoKeys e) ∧
    verifySignatures demoCrypto demoKeys demoSigs6 = .ret ("01", none) ∧
    attestCount "01" demoSigs6 = 2 ∧
    ¬ (3 * attestCount "01" demoSigs6 > demoSigs6.length) := by
  decide

/-- C4, amended: whenever `verifySignatures` returns a non-empty consensus hash
for `n` artifacts (fewer than `2 ^ 53`), the number `c` of artifacts attesting to
that hash is at least 2, and when `n` is a multiple of three it is at least one
third of the nodes, `3 * c ≥ n`; the count may equal one third exactly. -/
theorem verifySignatures_consensus_count (cr : Crypto) (keys : List (String × String))
    (sigs : List (String × SignatureFile)) (h : String)
    (hlen : sigs.length < 2 ^ 53)
    (hret : verifySignatures cr keys sigs = .ret (h, none)) (hne : h ≠ "") :
    2 ≤ attestCount h sigs ∧
      (sigs.length % 3 = 0 → sigs.length ≤ 3 * attestCount h sigs) := by
  obtain ⟨hall, _⟩ := verifySignatures_ok_inv cr keys sigs h hret
  rw [verifySignatures_of_passes cr keys sigs hlen hall] at hret
  obtain ⟨_, _, ht⟩ := inv_final sigs
  split_ifs at hret with hthr
  · simp only [Go.ret.injEq, Prod.mk.injEq, and_true] at hret
    rcases ht with ⟨_, hs⟩ | ⟨hM, hcnt, _⟩
    · exact absurd (hret ▸ hs) hne
    · rw [hret] at hcnt
      rw [hcnt]
      refine ⟨hM, ?_⟩
      intro hmod
      omega
  · simp only [Go.ret.injEq, Prod.mk.injEq, and_true] at hret
    exact absurd hret.symm hne

/-- Witness for C4, amended: the nine artifacts split 3/3/3 return `01`, attested
by three of them, exactly one third. -/
theorem verifySignatures_consensus_count_witness :
    2 ≤ attestCount "01" demoSigs9 ∧ demoSigs9.length ≤ 3 * attestCount "01" demoSigs9 :=
  ⟨(verifySignatures_consensus_count demoCrypto demoKeys demoSigs9 "01"
      (by decide) (by decide) (by decide)).1,
   (verifySignatures_consensus_count demoCrypto demoKeys demoSigs9 "01"
      (by decide) (by decide) (by decide)).2 (by decide)⟩

/-- Counterexample to C5: a single verifying artifact gives the no-consensus
result, and for the empty record-file hash `performStateProof` then returns nil
instead of `ErrorHashesNotMatch`. -/
theorem performStateProof_nil_without_consensus :
    verifySignatures demoCrypto demoKeys [("0.0.3", demoFile 1 [10])] = .ret ("", none) ∧
    performStateProof demoCrypto demoKeys [("0.0.3", demoFile 1 [10])] "" = .ret none := by
  decide

/-- C5, amended: for every non-empty record-file hash, `performStateProof`
returns `ErrorHashesNotMatch` whenever `verifySignatures` reports no consensus
(the empty hash without error) and whenever it reports a hash different from the
record file's hash; it returns nil exactly when `verifySignatures` returns the
record file's hash, which is then a non-empty consensus hash. -/
theorem performStateProof_hash_check (cr : Crypto) (keys : List (String × String))
    (sigs : List (String × SignatureFile)) (hash : String) (hne : hash ≠ "") :
    (verifySignatures cr keys sigs = .ret ("", none) →
      performStateProof cr keys sigs hash = .ret (some .ErrorHashesNotMatch)) ∧
    (∀ res, verifySignatures cr keys sigs = .ret (res, none) → res ≠ hash →
      performStateProof cr keys sigs hash = .ret (some .ErrorHashesNotMatch)) ∧
    (performStateProof cr keys sigs hash = .ret none ↔
      verifySignatures cr keys sigs = .ret (hash, none)) := by
  have hdiff : ∀ res, verifySignatures cr keys sigs = .ret (res, none) → res ≠ hash →
      performStateProof cr keys sigs hash = .ret (some .ErrorHashesNotMatch) := by
    intro res hres hneq
    have hneq' : hash ≠ res := fun h => hneq h.symm
    simp [performStateProof, hres, hneq']
  refine ⟨fun h => hdiff "" h (fun h' => hne h'.symm), hdiff, ?_⟩
  constructor
  · intro hnil
    unfold performStateProof at hnil
    cases hv : verifySignatures cr keys sigs with
    | panic => simp [hv] at hnil
    | ret r =>
      obtain ⟨res, err⟩ := r
      cases err with
      | some e => simp [hv] at hnil
      | none =>
        by_cases heq : hash = res
        · rw [heq]
        · simp [hv, heq] at hnil
  · intro hv
    simp [performStateProof, hv]

/-- Witness for C5, amended: with the record-file hash `01` the ten artifacts
split 4/3/3 are accepted. -/
theorem performStateProof_hash_check_witness :
    performStateProof demoCrypto demoKeys demoSigs10 "01" = .ret none :=
  (performStateProof_hash_check demoCrypto demoKeys demoSigs10 "01" (by decide)).2.2.mpr
    (by decide)

/-- C6: when all artifacts verify and no hash is attested by more than one node,
`verifySignatures` returns the no-consensus result (empty hash, no error) in
every processing order, whatever the number of artifacts and the hash values;
this is so in particular for every collection of exactly one artifact. -/
theorem verifySignatures_no_repeated_hash (cr : Crypto) (keys : List (String × String))
    (sigs : List (String × SignatureFile)) (hall : ∀ e ∈ sigs, Passes cr keys e) :
    ((∀ H : List Nat, attestCount (hexEncodeToString H) sigs ≤ 1) →
      ∀ order : List (String × SignatureFile),
      order.Perm sigs → verifySignatures cr keys order = .ret ("", none)) ∧
    (sigs.length = 1 → verifySignatures cr keys sigs = .ret ("", none)) := by
  have hgen : ∀ l : List (String × SignatureFile), (∀ e ∈ l, Passes cr keys e) →
      (∀ H : List Nat, attestCount (hexEncodeToString H) l ≤ 1) →
      verifySignatures cr keys l = .ret ("", none) := by
    intro l hl hsingle
    rw [verifySignatures_of_passes_raw cr keys l hl, (tracked_empty_of_no_repeat l hsingle).2]
    split_ifs <;> rfl
  constructor
  · intro hsingle order hperm
    apply hgen
    · exact fun e he => hall e (hperm.mem_iff.mp he)
    · intro H
      rw [attestCount_perm _ hperm]
      exact hsingle H
  · intro hone
    apply hgen sigs hall
    intro H
    rw [← hone]
    exact attestCount_le_length _ sigs

/-- Witness for C6: a single verifying artifact, and two verifying artifacts
with different hashes in reverse order. -/
theorem verifySignatures_no_repeated_hash_witness :
    verifySignatures demoCrypto demoKeys [("0.0.3", demoFile 1 [10])] = .ret ("", none) ∧
    verifySignatures demoCrypto demoKeys
      [("0.0.4", demoFile 2 [2]), ("0.0.3", demoFile 1 [1])] = .ret ("", none) :=
  ⟨(verifySignatures_no_repeated_hash demoCrypto demoKeys [("0.0.3", demoFile 1 [10])]
      (by decide)).2 rfl,
   (verifySignatures_no_repeated_hash demoCrypto demoKeys
      [("0.0.3", demoFile 1 [1]), ("0.0.4", demoFile 2 [2])] (by decide)).1
      (by
        intro H
        generalize hexEncodeToString H = h
        by_cases h1 : "01" = h
        · subst h1
          decide
        · have e1 : hexEncodeToString [1] = "01" := by decide
          simp only [attestCount, demoFile, List.countP_cons, List.countP_nil, e1]
          simp only [beq_iff_eq, h1, if_false]
          split_ifs <;> decide)
      _ (List.Perm.swap _ _ _)⟩

/-- C7: for every number `n` of signature artifacts (below `2 ^ 53`, where
`float64` holds every integer exactly) the threshold
`int(math.Ceil(float64(n / 3)))` equals `n / 3` rounded down; and when all `n`
artifacts verify, the loop ends with a tracked hash and its count, and
`verifySignatures` returns the tracked hash when that count is at least the
threshold and the no-consensus result otherwise. -/
theorem consensusSigs_is_floor_third (n : Nat) (hn : n < 2 ^ 53) :
    consensusSigs n = ((n / 3 : Nat) : Int) ∧
    ∀ (cr : Crypto) (keys : List (String × String)) (sigs : List (String × SignatureFile)),
      sigs.length = n → (∀ e ∈ sigs, Passes cr keys e) →
      ∃ st, rangeLoop cr keys sigs initState = .next st ∧
        ((st.maxHashCount = 0 ∧ st.consensusHash = "") ∨
          (2 ≤ st.maxHashCount ∧ attestCount st.consensusHash sigs = st.maxHashCount)) ∧
        (n / 3 ≤ st.maxHashCount →
          verifySignatures cr keys sigs = .ret (st.consensusHash, none)) ∧
        (st.maxHashCount < n / 3 → verifySignatures cr keys sigs = .ret ("", none)) := by
  refine ⟨consensusSigs_eq n hn, ?_⟩
  intro cr keys sigs hlen hall
  have hlen' : sigs.length < 2 ^ 53 := by rw [hlen]; exact hn
  refine ⟨tallyAll initState sigs, rangeLoop_of_passes cr keys sigs initState hall, ?_, ?_, ?_⟩
  · obtain ⟨_, _, ht⟩ := inv_final sigs
    rcases ht with h0 | ⟨hM, hcnt, _⟩
    · exact Or.inl h0
    · exact Or.inr ⟨hM, hcnt⟩
  · intro hge
    rw [verifySignatures_of_passes cr keys sigs hlen' hall, hlen, if_pos hge]
  · intro hlt
    rw [verifySignatures_of_passes cr keys sigs hlen' hall, hlen, if_neg (not_le.mpr hlt)]

/-- Witness for C7: for ten artifacts the threshold is three. -/
theorem consensusSigs_is_floor_third_witness : consensusSigs 10 = 3 :=
  (consensusSigs_is_floor_third 10 (by decide)).1

/-- C8: for verifying artifacts taken in processing order, the hash tracked at
the end of the loop is empty (with count 0) when no hash is attested twice;
otherwise the tracked count `M` is the largest number of artifacts attesting to
one hash, `M ≥ 2`, and the tracked hash is the hash of the first artifact at
which a running count reached `M`: before that artifact every hash had fewer
than `M` attestations, so a hash reaching `M` later does not replace it. -/
theorem tracked_hash_first_to_reach_maximum (cr : Crypto) (keys : List (String × String))
    (sigs : List (String × SignatureFile)) (hall : ∀ e ∈ sigs, Passes cr keys e) :
    ∃ st, rangeLoop cr keys sigs initState = .next st ∧
      ((∀ H : List Nat, attestCount (hexEncodeToString H) sigs ≤ 1) →
        st.consensusHash = "" ∧ st.maxHashCount = 0) ∧
      ((∃ H : List Nat, 2 ≤ attestCount (hexEncodeToString H) sigs) →
        2 ≤ st.maxHashCount ∧
        (∀ h, attestCount h sigs ≤ st.maxHashCount) ∧
        attestCount st.consensusHash sigs = st.maxHashCount ∧
        ∃ pre x post, sigs = pre ++ x :: post ∧
          hexEncodeToString x.2.Hash = st.consensusHash ∧
          attestCount st.consensusHash (pre ++ [x]) = st.maxHashCount ∧
          ∀ h, attestCount h pre < st.maxHashCount) := by
  refine ⟨tallyAll initState sigs, rangeLoop_of_passes cr keys sigs initState hall, ?_, ?_⟩
  · intro hsingle
    exact (tracked_empty_of_no_repeat sigs hsingle).symm
  · rintro ⟨h, hh⟩
    obtain ⟨_, hb, ht⟩ := inv_final sigs
    rcases ht with ⟨h0, _⟩ | ⟨hM, hcnt, hsplit⟩
    · have := hb (hexEncodeToString h)
      rw [h0] at this
      simp at this
      omega
    · refine ⟨hM, ?_, hcnt, hsplit⟩
      intro h'
      rcases le_max_iff.mp (hb h') with h3 | h3 <;> omega

/-- Witness for C8: three verifying artifacts with hashes `01`, `02`, `01`. -/
theorem tracked_hash_first_to_reach_maximum_witness :
    ∃ st, rangeLoop demoCrypto demoKeys
        [("0.0.3", demoFile 1 [1]), ("0.0.4", demoFile 2 [2]), ("0.0.5", demoFile 3 [1])]
        initState = .next st ∧ st.consensusHash = "01" ∧ st.maxHashCount = 2 := by
  obtain ⟨st, hst, _, h2⟩ := tracked_hash_first_to_reach_maximum demoCrypto demoKeys
    [("0.0.3", demoFile 1 [1]), ("0.0.4", demoFile 2 [2]), ("0.0.5", demoFile 3 [1])]
    (by decide)
  refine ⟨st, hst, ?_⟩
  have hev : rangeLoop demoCrypto demoKeys
      [("0.0.3", demoFile 1 [1]), ("0.0.4", demoFile 2 [2]), ("0.0.5", demoFile 3 [1])]
      initState = .next
        { verifiedSigs := [("01", ["0.0.3", "0.0.5"]), ("02", ["0.0.4"]), ("01", ["0.0.3"])],
          consensusHash := "01", maxHashCount := 2 } := by decide
  rw [hev] at hst
  cases hst
  exact ⟨rfl, rfl⟩

/-- C9: the transaction id that `Verify` looks up is the input with every
character `.`, `@` and `-` replaced by `_` and every other character unchanged
in place: the length is the same, none of the three characters remains, and
`0.0.100@1614556800.123456789` becomes `0_0_100_1614556800_123456789`. -/
theorem normalizeTxId_spec (txId : String) :
    (normalizeTxId txId).data =
      txId.data.map (fun c => if c = '.' ∨ c = '@' ∨ c = '-' then '_' else c) ∧
    (normalizeTxId txId).length = txId.length ∧
    (∀ c ∈ (normalizeTxId txId).data, c ≠ '.' ∧ c ≠ '@' ∧ c ≠ '-') ∧
    normalizeTxId "0.0.100@1614556800.123456789" = "0_0_100_1614556800_123456789" := by
  have hlist : ∀ l : List Char,
      (l.flatMap fun c => if separatorClass c then "_".data else [c]) =
        l.map (fun c => if c = '.' ∨ c = '@' ∨ c = '-' then '_' else c) := by
    intro l
    induction l with
    | nil => rfl
    | cons a rest ih =>
      rw [List.flatMap_cons, List.map_cons, ih]
      by_cases h : a = '.' ∨ a = '@' ∨ a = '-'
      · have hb : separatorClass a = true := by
          unfold separatorClass
          simpa [Bool.or_assoc] using h
        simp only [hb, if_true, if_pos h]
        rfl
      · have hb : separatorClass a = false := by
          unfold separatorClass
          rw [← Bool.not_eq_true]
          simpa [Bool.or_assoc] using h
        simp only [hb, if_neg h]
        rfl
  have hdata : (normalizeTxId txId).data =
      txId.data.map (fun c => if c = '.' ∨ c = '@' ∨ c = '-' then '_' else c) :=
    hlist txId.data
  refine ⟨hdata, ?_, ?_, by decide⟩
  · show (normalizeTxId txId).data.length = txId.data.length
    rw [hdata, List.length_map]
  · intro c hc
    rw [hdata] at hc
    obtain ⟨a, _, ha⟩ := List.mem_map.mp hc
    by_cases h : a = '.' ∨ a = '@' ∨ a = '-'
    · rw [if_pos h] at ha
      subst ha
      decide
    · rw [if_neg h] at ha
      subst ha
      push_neg at h
      exact h

/-- C10: when the archive, address-book, signature-file and record-file parsers
all succeed and the normalized transaction id has no entry in the record file's
transaction map, `Verify` returns `(false, ErrorTransactionNotFound)`, whatever
the signature artifacts and public keys are. -/
theorem Verify_transaction_not_found (cr : Crypto) (ps : Parsers) (txId : String)
    (payload : List Nat)
    (stateProof : StateProof ps.AddressBooks ps.SignatureFiles ps.RecordFileData)
    (nodeIdPairs : List (String × String)) (signatureFiles : List (String × SignatureFile))
    (recordFile : RecordFile ps.Transaction)
    (h1 : ps.NewStateProof payload = .ok stateProof)
    (h2 : ps.ParseAddressBooks stateProof.AddressBooks = .ok nodeIdPairs)
    (h3 : ps.ParseSignatureFiles stateProof.SignatureFiles = .ok signatureFiles)
    (h4 : ps.ParseRecordFile stateProof.RecordFile = .ok recordFile)
    (habsent : recordFile.TransactionsMap.lookup (normalizeTxId txId) = none) :
    Verify cr ps txId payload = .ret (false, some .ErrorTransactionNotFound) := by
  have hget : mapGet recordFile.TransactionsMap none (normalizeTxId txId) = none := by
    simp [mapGet, habsent]
  simp only [Verify, h1, h2, h3, h4, hget]

/-- Witness for C10: the record file of `demoParsers` does not hold the
transaction `0.0.100@1614556800.999`. -/
theorem Verify_transaction_not_found_witness :
    Verify demoCrypto demoParsers "0.0.100@1614556800.999" [1] =
      .ret (false, some .ErrorTransactionNotFound) :=
  Verify_transaction_not_found demoCrypto demoParsers "0.0.100@1614556800.999" [1]
    { AddressBooks := [1], SignatureFiles := [1], RecordFile := [1] } demoKeys demoSigs10
    { Hash := "01", TransactionsMap := [("0_0_100_1614556800_123456789", some ())] }
    rfl rfl rfl rfl rfl

/-! ## Lemmas on the readers and decoders -/

theorem readFull_append (v rest : List Nat) (n : Nat) (hv : v.length = n) :
    readFull (v ++ rest) n = .ok (v, rest) := by
  unfold readFull
  by_cases hn : n = 0
  · have hnil : v = [] := List.length_eq_zero.mp (hv.trans hn)
    simp [hn, hnil]
  · rw [if_neg hn]
    cases v with
    | nil => exact absurd hv.symm hn
    | cons a v =>
      have hlen : ¬ (a :: v ++ rest).length < n := by
        simp only [List.length_append, ← hv]
        omega
      simp only [List.cons_append]
      rw [← List.cons_append, if_neg hlen, ← hv, List.take_left, List.drop_left]

theorem readFull_ok (buffer : List Nat) (n : Nat) (bs rest : List Nat)
    (h : readFull buffer n = .ok (bs, rest)) : buffer = bs ++ rest ∧ bs.length = n := by
  unfold readFull at h
  by_cases hn : n = 0
  · simp only [hn, if_true, Except.ok.injEq, Prod.mk.injEq] at h
    obtain ⟨h1, h2⟩ := h
    subst h1 h2
    exact ⟨rfl, hn.symm⟩
  · rw [if_neg hn] at h
    cases buffer with
    | nil => simp at h
    | cons a v =>
      simp only at h
      split_ifs at h with hlt
      simp only [Except.ok.injEq, Prod.mk.injEq] at h
      obtain ⟨h1, h2⟩ := h
      subst h1 h2
      refine ⟨(List.take_append_drop n (a :: v)).symm, ?_⟩
      rw [List.length_take]
      omega

theorem readFull_local (n : Nat) : Local (fun s => readFull s n) := by
  intro s t v rest h
  obtain ⟨hs, hv⟩ := readFull_ok s n v rest h
  show readFull (s ++ t) n = .ok (v, rest ++ t)
  rw [hs, List.append_assoc]
  exact readFull_append v (rest ++ t) n hv

theorem readUint32_append (tag rest : List Nat) (ht : tag.length = 4) :
    readUint32 (tag ++ rest) = .ok (bigEndian tag, rest) := by
  unfold readUint32
  rw [readFull_append tag rest 4 ht]

theorem readUint32_ok (buffer : List Nat) (x : Nat) (rest : List Nat)
    (h : readUint32 buffer = .ok (x, rest)) :
    ∃ tag, buffer = tag ++ rest ∧ tag.length = 4 ∧ x = bigEndian tag := by
  unfold readUint32 at h
  cases hr : readFull buffer 4 with
  | error e => simp [hr] at h
  | ok r =>
    obtain ⟨bs, rest'⟩ := r
    simp only [hr, Except.ok.injEq, Prod.mk.injEq] at h
    obtain ⟨h1, h2⟩ := h
    subst h1 h2
    obtain ⟨hs, hv⟩ := readFull_ok buffer 4 bs rest' hr
    exact ⟨bs, hs, hv, rfl⟩

theorem readUint32_of_length (buffer : List Nat) (h4 : 4 ≤ buffer.length) :
    readUint32 buffer = .ok (bigEndian (buffer.take 4), buffer.drop 4) := by
  have hsplit : buffer = buffer.take 4 ++ buffer.drop 4 := (List.take_append_drop 4 buffer).symm
  have hlen : (buffer.take 4).length = 4 := by
    rw [List.length_take]
    omega
  conv_lhs => rw [hsplit]
  exact readUint32_append _ _ hlen

theorem specLengthAndBytes_append (field payload rest : List Nat) (fieldSize maxLength : Nat)
    (flag : Bool) (hf : field.length = fieldSize) (hmax : bigEndian field ≤ maxLength)
    (hp : payload.length = bigEndian field) :
    specLengthAndBytes (field ++ payload ++ rest) fieldSize maxLength flag =
      .ok (((if flag then fieldSize + bigEndian field else bigEndian field) % 2 ^ 32, payload),
        rest) := by
  unfold specLengthAndBytes
  have h1 : ¬ (field ++ payload ++ rest).length < fieldSize := by
    simp only [List.length_append, hf]
    omega
  have htake : (field ++ payload ++ rest).take fieldSize = field := by
    rw [List.append_assoc, ← hf, List.take_left]
  have hdrop : (field ++ payload ++ rest).drop fieldSize = payload ++ rest := by
    rw [List.append_assoc, ← hf, List.drop_left]
  have h2 : ¬ maxLength < bigEndian field := by omega
  have h3 : ¬ (payload ++ rest).length < bigEndian field := by
    simp only [List.length_append, hp]
    omega
  simp only [if_neg h1, htake, hdrop, if_neg h2, if_neg h3]
  rw [← hp, List.take_left, List.drop_left]

theorem specLengthAndBytes_ok (buffer : List Nat) (fieldSize maxLength : Nat) (flag : Bool)
    (n : Nat) (b rest : List Nat)
    (h : specLengthAndBytes buffer fieldSize maxLength flag = .ok ((n, b), rest)) :
    ∃ field, buffer = field ++ b ++ rest ∧ field.length = fieldSize ∧
      bigEndian field ≤ maxLength ∧ b.length = bigEndian field ∧
      n = (if flag then fieldSize + bigEndian field else bigEndian field) % 2 ^ 32 := by
  unfold specLengthAndBytes at h
  by_cases h1 : buffer.length < fieldSize
  · simp only [if_pos h1] at h
    cases h
  by_cases h2 : maxLength < bigEndian (buffer.take fieldSize)
  · simp only [if_neg h1, if_pos h2] at h
    cases h
  by_cases h3 : (buffer.drop fieldSize).length < bigEndian (buffer.take fieldSize)
  · simp only [if_neg h1, if_neg h2, if_pos h3] at h
    cases h
  simp only [if_neg h1, if_neg h2, if_neg h3, Except.ok.injEq, Prod.mk.injEq] at h
  obtain ⟨⟨hn, hb⟩, hrest⟩ := h
  refine ⟨buffer.take fieldSize, ?_, ?_, ?_, ?_, ?_⟩
  · rw [← hb, ← hrest, List.append_assoc, List.take_append_drop, List.take_append_drop]
  · rw [List.length_take]
    omega
  · omega
  · rw [← hb, List.length_take]
    omega
  · rw [← hn]

theorem specLengthAndBytes_local (fieldSize maxLength : Nat) (flag : Bool) :
    Local (fun s => specLengthAndBytes s fieldSize maxLength flag) := by
  intro s t v rest h
  obtain ⟨n, b⟩ := v
  obtain ⟨field, hs, hf, hmax, hb, hn⟩ := specLengthAndBytes_ok s fieldSize maxLength flag n b rest h
  show specLengthAndBytes (s ++ t) fieldSize maxLength flag = .ok ((n, b), rest ++ t)
  rw [hs, List.append_assoc, hn]
  exact specLengthAndBytes_append field b (rest ++ t) fieldSize maxLength flag hf hmax hb

theorem specNewHash_append (h rest : List Nat) (n : Nat) (hh : h.length = n) :
    specNewHash n (h ++ rest) = .ok ({ Hash := h }, rest) := by
  unfold specNewHash
  have h1 : ¬ (h ++ rest).length < n := by
    simp only [List.length_append, hh]
    omega
  rw [if_neg h1, ← hh, List.take_left, List.drop_left]

theorem specNewHash_local (n : Nat) : Local (specNewHash n) := by
  intro s t v rest h
  unfold specNewHash at h
  split_ifs at h with h1
  simp only [Except.ok.injEq, Prod.mk.injEq] at h
  obtain ⟨hv, hrest⟩ := h
  have hs : s = s.take n ++ rest := by rw [← hrest, List.take_append_drop]
  have hlen : (s.take n).length = n := by
    rw [List.length_take]
    omega
  rw [hs, List.append_assoc, ← hv]
  exact specNewHash_append _ _ n hlen

theorem readBody_local (rd : Readers) (c : Constants) (sf : SignatureFile)
    (hloc : ∀ a b flag, Local (fun s => rd.LengthAndBytes s a b flag)) :
    Local (readBody rd c sf) := by
  intro s t v rest h
  unfold readBody at h ⊢
  cases hu : readUint32 s with
  | error e => simp [hu] at h
  | ok r =>
    obtain ⟨x, s1⟩ := r
    obtain ⟨tag, hs, htag, hx⟩ := readUint32_ok s x s1 hu
    have hu' : readUint32 (s ++ t) = .ok (x, s1 ++ t) := by
      rw [hs, List.append_assoc, hx]
      exact readUint32_append tag (s1 ++ t) htag
    simp only [hu] at h
    simp only [hu']
    split_ifs at h ⊢ with hne
    cases hl : rd.LengthAndBytes s1 c.ByteSize c.Sha384WithRsaMaxLength true with
    | error e => simp [hl] at h
    | ok r2 =>
      obtain ⟨⟨n, b⟩, s2⟩ := r2
      have hl' := hloc c.ByteSize c.Sha384WithRsaMaxLength true s1 t (n, b) s2 hl
      simp only [hl, Except.ok.injEq, Prod.mk.injEq] at h
      simp only [hl']
      obtain ⟨hv, hrest⟩ := h
      rw [← hv, ← hrest]

theorem NewSignatureFile_local (rd : Readers) (c : Constants)
    (hstream : Local rd.NewStream)
    (hloc : ∀ a b flag, Local (fun s => rd.LengthAndBytes s a b flag)) :
    Local (NewSignatureFile rd c) := by
  intro s t v rest h
  unfold NewSignatureFile at h ⊢
  cases hn : rd.NewStream s with
  | error e => simp [hn] at h
  | ok r =>
    obtain ⟨stream, s1⟩ := r
    have hn' := hstream s t stream s1 hn
    simp only [hn] at h
    simp only [hn']
    cases hb : readBody rd c (SignatureFile.mk stream [] [] 0 none []) s1 with
    | error e => simp [hb] at h
    | ok r2 =>
      obtain ⟨⟨n, sf⟩, s2⟩ := r2
      have hb' := readBody_local rd c _ hloc s1 t (n, sf) s2 hb
      simp only [hb, Except.ok.injEq, Prod.mk.injEq] at h
      simp only [hb']
      obtain ⟨hv, hrest⟩ := h
      rw [← hv, ← hrest]

theorem specNewStream_local : Local specNewStream := by
  intro s t v rest h
  unfold specNewStream at h ⊢
  simp only [Except.ok.injEq, Prod.mk.injEq] at h
  obtain ⟨hv, hrest⟩ := h
  rw [← hv, ← hrest]

theorem NewSignatureFile_spec_local (c : Constants) :
    Local (NewSignatureFile (specReaders c) c) :=
  NewSignatureFile_local (specReaders c) c specNewStream_local
    (fun a b flag => specLengthAndBytes_local a b flag)

theorem readerRead_then_readByte (s : List Nat) (n : Nat) (hash s1 : List Nat) (m : Nat)
    (s2 : List Nat) (h1 : readerRead s n = .ok (hash, s1)) (h2 : readByte s1 = .ok (m, s2)) :
    n < s.length ∧ hash = s.take n ∧ s.drop n = m :: s2 ∧
      ∀ t, readerRead (s ++ t) n = .ok (hash, (m :: s2) ++ t) := by
  cases s with
  | nil => simp [readerRead] at h1
  | cons a s' =>
    simp only [readerRead, Except.ok.injEq, Prod.mk.injEq] at h1
    obtain ⟨hh, hs1⟩ := h1
    cases s1 with
    | nil => simp [readByte] at h2
    | cons b s1' =>
      simp only [readByte, Except.ok.injEq, Prod.mk.injEq] at h2
      obtain ⟨hb, hs2⟩ := h2
      subst hb hs2
      have hlt : n < (a :: s').length := by
        by_contra hge
        have : (a :: s').drop n = [] := List.drop_eq_nil_of_le (by omega)
        rw [this] at hs1
        cases hs1
      have hzero : n - (a :: s').length = 0 := by omega
      have hhash : hash = (a :: s').take n := by
        rw [← hh, hzero]
        simp
      refine ⟨hlt, hhash, hs1, ?_⟩
      intro t
      have hzero' : n - (a :: s' ++ t).length = 0 := by
        simp only [List.length_append]
        omega
      have htake : (a :: s' ++ t).take n = (a :: s').take n :=
        List.take_append_of_le_length (by omega)
      have hdrop : (a :: s' ++ t).drop n = (a :: s').drop n ++ t :=
        List.drop_append_of_le_length (by omega)
      show readerRead (a :: (s' ++ t)) n = _
      simp only [readerRead]
      rw [← List.cons_append, hzero', htake, hdrop, hs1, hhash]
      simp

theorem NewV2SignatureFile_trailing (rd : Readers) (c : Constants)
    (hloc : ∀ a b flag, Local (fun s => rd.LengthAndBytes s a b flag))
    (s t : List Nat) (ht : t ≠ []) (sf : SignatureFile) (rest : List Nat)
    (h : NewV2SignatureFile rd c s = .ok (sf, rest)) :
    NewV2SignatureFile rd c (s ++ t) = .error .ErrorExtraDataInSignatureFile := by
  unfold NewV2SignatureFile at h ⊢
  cases h1 : readerRead s c.Sha384Length with
  | error e => simp [h1] at h
  | ok r1 =>
    obtain ⟨hash, s1⟩ := r1
    simp only [h1] at h
    cases h2 : readByte s1 with
    | error e => simp [h2] at h
    | ok r2 =>
      obtain ⟨m, s2⟩ := r2
      obtain ⟨_, _, _, hread⟩ := readerRead_then_readByte s _ hash s1 m s2 h1 h2
      have h2' : readByte ((m :: s2) ++ t) = .ok (m, s2 ++ t) := rfl
      simp only [h2] at h
      simp only [hread t, h2']
      split_ifs at h ⊢ with hm
      cases h3 : rd.LengthAndBytes s2 c.ByteSize c.Sha384WithRsaMaxLength false with
      | error e => simp [h3] at h
      | ok r3 =>
        obtain ⟨⟨n, sig⟩, s3⟩ := r3
        have h3' : rd.LengthAndBytes (s2 ++ t) c.ByteSize c.Sha384WithRsaMaxLength false =
            .ok ((n, sig), s3 ++ t) := hloc _ _ _ s2 t (n, sig) s3 h3
        simp only [h3] at h
        simp only [h3']
        have hlen : (s3 ++ t).length ≠ 0 := by
          rw [List.length_append]
          have : t.length ≠ 0 := fun h0 => ht (List.length_eq_zero.mp h0)
          omega
        rw [if_pos hlen]

theorem NewV5SignatureFile_trailing (rd : Readers) (c : Constants)
    (hstream : Local rd.NewStream) (hhash : Local rd.NewHash)
    (hloc : ∀ a b flag, Local (fun s => rd.LengthAndBytes s a b flag))
    (s t : List Nat) (ht : t ≠ []) (sf : SignatureFile) (rest : List Nat)
    (h : NewV5SignatureFile rd c s = .ok (sf, rest)) :
    NewV5SignatureFile rd c (s ++ t) = .error .ErrorExtraDataInSignatureFile := by
  have hsig := NewSignatureFile_local rd c hstream hloc
  unfold NewV5SignatureFile at h ⊢
  cases h1 : readFull s c.IntSize with
  | error e => simp [h1] at h
  | ok r1 =>
    obtain ⟨x, s1⟩ := r1
    have h1' : readFull (s ++ t) c.IntSize = .ok (x, s1 ++ t) :=
      readFull_local c.IntSize s t x s1 h1
    simp only [h1] at h
    simp only [h1']
    cases h2 : rd.NewHash s1 with
    | error e => simp [h2] at h
    | ok r2 =>
      obtain ⟨hash, s2⟩ := r2
      have h2' := hhash s1 t hash s2 h2
      simp only [h2] at h
      simp only [h2']
      cases h3 : NewSignatureFile rd c s2 with
      | error e => simp [h3] at h
      | ok r3 =>
        obtain ⟨sf1, s3⟩ := r3
        have h3' := hsig s2 t sf1 s3 h3
        simp only [h3] at h
        simp only [h3']
        cases h4 : rd.NewHash s3 with
        | error e => simp [h4] at h
        | ok r4 =>
          obtain ⟨mh, s4⟩ := r4
          have h4' := hhash s3 t mh s4 h4
          simp only [h4] at h
          simp only [h4']
          cases h5 : NewSignatureFile rd c s4 with
          | error e => simp [h5] at h
          | ok r5 =>
            obtain ⟨sf2, s5⟩ := r5
            have h5' := hsig s4 t sf2 s5 h5
            simp only [h5] at h
            simp only [h5']
            have hlen : (s5 ++ t).length ≠ 0 := by
              rw [List.length_append]
              have : t.length ≠ 0 := fun h0 => ht (List.length_eq_zero.mp h0)
              omega
            rw [if_pos hlen]

/-! ## The claims on the decoders -/

/-- C12: for every byte sequence `s` that `NewV2SignatureFile` (respectively
`NewV5SignatureFile`) decodes successfully and every byte `b`, decoding `s`
followed by `b` with the same decoder fails with
`ErrorExtraDataInSignatureFile`. The readers outside the sources are the ones
the specification describes. -/
theorem trailing_byte_is_extra_data (c : Constants) (s : List Nat) (b : Nat) :
    (∀ sf rest, NewV2SignatureFile (specReaders c) c s = .ok (sf, rest) →
      NewV2SignatureFile (specReaders c) c (s ++ [b]) = .error .ErrorExtraDataInSignatureFile) ∧
    (∀ sf rest, NewV5SignatureFile (specReaders c) c s = .ok (sf, rest) →
      NewV5SignatureFile (specReaders c) c (s ++ [b]) = .error .ErrorExtraDataInSignatureFile) := by
  constructor
  · intro sf rest h
    exact NewV2SignatureFile_trailing (specReaders c) c
      (fun x y flag => specLengthAndBytes_local x y flag) s [b] (by simp) sf rest h
  · intro sf rest h
    exact NewV5SignatureFile_trailing (specReaders c) c specNewStream_local
      (specNewHash_local c.Sha384Length)
      (fun x y flag => specLengthAndBytes_local x y flag) s [b] (by simp) sf rest h

/-- Witness for C12: the V2 file and the V5 file of the examples decode, and with
the byte `1` appended both are rejected as carrying extra data. -/
theorem trailing_byte_is_extra_data_witness :
    NewV2SignatureFile (specReaders demoConstants) demoConstants (demoV2File ++ [1])
      = .error .ErrorExtraDataInSignatureFile ∧
    NewV5SignatureFile (specReaders demoConstants) demoConstants (demoV5File ++ [1])
      = .error .ErrorExtraDataInSignatureFile :=
  ⟨(trailing_byte_is_extra_data demoConstants demoV2File 1).1
      { Hash := demoHashBlock 5, Signature := [7, 8], Version := 4, MetadataHash := none,
        MetadataSignature := [] } [] (by decide),
   (trailing_byte_is_extra_data demoConstants demoV5File 1).2
      { Hash := demoHashBlock 5, Signature := [7, 8, 9], Version := 5,
        MetadataHash := some (demoHashBlock 6), MetadataSignature := [7, 8, 9] } []
      (by decide)⟩

/-- C13: for every four leading bytes `v`, every two 48-byte hash blocks `h1`,
`h2` and every two byte sequences `l1`, `l2` that each decode on their own as a
legacy signature block with nothing left over, `NewV5SignatureFile` applied to
`v ++ h1 ++ l1 ++ h2 ++ l2` succeeds and returns the hash `h1`, the signature of
`l1`, the metadata hash `h2`, the metadata signature of `l2` and the V5 format
version, whatever `v` is. The readers outside the sources are the ones the
specification describes, with four-byte integers and 48-byte hashes. -/
theorem NewV5SignatureFile_of_parts (c : Constants) (hint : c.IntSize = 4)
    (hsha : c.Sha384Length = 48) (v h1 l1 h2 l2 : List Nat) (sf1 sf2 : SignatureFile)
    (hv : v.length = 4) (hh1 : h1.length = 48) (hh2 : h2.length = 48)
    (hl1 : NewSignatureFile (specReaders c) c l1 = .ok (sf1, []))
    (hl2 : NewSignatureFile (specReaders c) c l2 = .ok (sf2, [])) :
    NewV5SignatureFile (specReaders c) c (v ++ h1 ++ l1 ++ h2 ++ l2) =
      .ok ({ Stream := { BodyLength := 0 }, Hash := h1, Signature := sf1.Signature,
             Version := c.SignatureFileFormatV5, MetadataHash := some h2,
             MetadataSignature := sf2.Signature }, []) := by
  have hloc := NewSignatureFile_spec_local c
  have e1 : readFull (v ++ (h1 ++ (l1 ++ (h2 ++ l2)))) c.IntSize =
      .ok (v, h1 ++ (l1 ++ (h2 ++ l2))) := readFull_append _ _ _ (by rw [hv, hint])
  have e2 : (specReaders c).NewHash (h1 ++ (l1 ++ (h2 ++ l2))) =
      .ok ({ Hash := h1 }, l1 ++ (h2 ++ l2)) :=
    specNewHash_append _ _ _ (by rw [hh1, hsha])
  have e3 : NewSignatureFile (specReaders c) c (l1 ++ (h2 ++ l2)) = .ok (sf1, h2 ++ l2) := by
    have := hloc l1 (h2 ++ l2) sf1 [] hl1
    simpa using this
  have e4 : (specReaders c).NewHash (h2 ++ l2) = .ok ({ Hash := h2 }, l2) :=
    specNewHash_append _ _ _ (by rw [hh2, hsha])
  unfold NewV5SignatureFile
  simp only [List.append_assoc, e1, e2, e3, e4, hl2]
  rfl

/-- Witness for C13: the V5 file of the examples, built from the version tag
`0 0 0 5`, two hash blocks and twice the legacy block with signature `7 8 9`. -/
theorem NewV5SignatureFile_of_parts_witness :
    NewV5SignatureFile (specReaders demoConstants) demoConstants
        ([0, 0, 0, 5] ++ demoHashBlock 5 ++ demoLegacyBlock ++ demoHashBlock 6 ++ demoLegacyBlock) =
      .ok ({ Stream := { BodyLength := 0 }, Hash := demoHashBlock 5, Signature := [7, 8, 9],
             Version := 5, MetadataHash := some (demoHashBlock 6),
             MetadataSignature := [7, 8, 9] }, []) :=
  NewV5SignatureFile_of_parts demoConstants rfl rfl [0, 0, 0, 5] (demoHashBlock 5)
    demoLegacyBlock (demoHashBlock 6) demoLegacyBlock
    { Stream := { BodyLength := 8 }, Hash := [], Signature := [7, 8, 9], Version := 0,
      MetadataHash := none, MetadataSignature := [] }
    { Stream := { BodyLength := 8 }, Hash := [], Signature := [7, 8, 9], Version := 0,
      MetadataHash := none, MetadataSignature := [] }
    rfl (by decide) (by decide) (by decide) (by decide)

theorem bigEndian_singleton (L : Nat) (hL : L < 256) : bigEndian [L] = L := by
  simp [bigEndian, Nat.mod_eq_of_lt hL]

theorem readBody_spec_signature_length (c : Constants) (sf : SignatureFile) (buffer : List Nat)
    (n : Nat) (sf' : SignatureFile) (rest : List Nat)
    (h : readBody (specReaders c) c sf buffer = .ok ((n, sf'), rest)) :
    sf'.Signature.length ≤ c.Sha384WithRsaMaxLength := by
  unfold readBody at h
  cases hu : readUint32 buffer with
  | error e => simp [hu] at h
  | ok r =>
    obtain ⟨x, s1⟩ := r
    simp only [hu] at h
    split_ifs at h with hne
    cases hl : (specReaders c).LengthAndBytes s1 c.ByteSize c.Sha384WithRsaMaxLength true with
    | error e => simp [hl] at h
    | ok r2 =>
      obtain ⟨⟨k, b⟩, s2⟩ := r2
      obtain ⟨field, _, _, hmax, hb, _⟩ :=
        specLengthAndBytes_ok s1 c.ByteSize c.Sha384WithRsaMaxLength true k b s2 hl
      simp only [hl, Except.ok.injEq, Prod.mk.injEq] at h
      obtain ⟨⟨_, hsf⟩, _⟩ := h
      rw [← hsf]
      show b.length ≤ _
      omega

/-- C14: with a one-byte length field and four-byte integers, for every declared
length `L` up to the maximum and every buffer that holds the right type tag, the
length byte `L`, `L` payload bytes and any further bytes, `readBody` and
`NewSignatureFile` leave exactly the further bytes unread, so they consume
`4 + 1 + L` bytes, report `4 + 1 + L` as body length and return the `L` payload
bytes as signature; for a length byte of maximum plus one they fail with
`LengthOutOfBounds`; and a signature returned by `NewSignatureFile` is never
longer than the maximum. The readers outside the sources are the ones the
specification describes. -/
theorem legacy_block_length_bound (c : Constants) (hbyte : c.ByteSize = 1)
    (hint : c.IntSize = 4) :
    (∀ (L : Nat) (tag payload rest : List Nat) (sf : SignatureFile),
      L ≤ c.Sha384WithRsaMaxLength → L < 256 → tag.length = 4 →
      bigEndian tag = c.Sha384WithRsaType → payload.length = L →
      (tag ++ [L] ++ payload).length = 4 + 1 + L ∧
      readBody (specReaders c) c sf (tag ++ [L] ++ payload ++ rest) =
        .ok ((4 + 1 + L, { sf with Signature := payload }), rest) ∧
      NewSignatureFile (specReaders c) c (tag ++ [L] ++ payload ++ rest) =
        .ok ({ Stream := { BodyLength := 4 + 1 + L }, Hash := [], Signature := payload,
               Version := 0, MetadataHash := none, MetadataSignature := [] }, rest)) ∧
    (∀ (tag tail : List Nat) (sf : SignatureFile),
      c.Sha384WithRsaMaxLength + 1 < 256 → tag.length = 4 →
      bigEndian tag = c.Sha384WithRsaType →
      readBody (specReaders c) c sf (tag ++ [c.Sha384WithRsaMaxLength + 1] ++ tail) =
        .error .LengthOutOfBounds ∧
      NewSignatureFile (specReaders c) c (tag ++ [c.Sha384WithRsaMaxLength + 1] ++ tail) =
        .error .LengthOutOfBounds) ∧
    (∀ (buffer rest : List Nat) (sf : SignatureFile),
      NewSignatureFile (specReaders c) c buffer = .ok (sf, rest) →
      sf.Signature.length ≤ c.Sha384WithRsaMaxLength) := by
  refine ⟨?_, ?_, ?_⟩
  · intro L tag payload rest sf hL hL256 htag htype hpay
    have hbody : ∀ sf0 : SignatureFile,
        readBody (specReaders c) c sf0 (tag ++ [L] ++ payload ++ rest) =
          .ok ((4 + 1 + L, { sf0 with Signature := payload }), rest) := by
      intro sf0
      have hu : readUint32 (tag ++ ([L] ++ payload ++ rest)) =
          .ok (bigEndian tag, [L] ++ payload ++ rest) := readUint32_append _ _ htag
      have hbe : bigEndian [L] = L := bigEndian_singleton L hL256
      have hl : (specReaders c).LengthAndBytes ([L] ++ payload ++ rest) c.ByteSize
          c.Sha384WithRsaMaxLength true = .ok (((1 + L) % 2 ^ 32, payload), rest) := by
        have := specLengthAndBytes_append [L] payload rest 1
          c.Sha384WithRsaMaxLength true rfl (by rw [hbe]; exact hL)
          (by rw [hbe]; exact hpay)
        rw [hbe] at this
        rw [hbyte]
        simpa [specReaders] using this
      have hfinal : ((1 + L) % 2 ^ 32 + c.IntSize) % 2 ^ 32 = 4 + 1 + L := by
        rw [hint]
        omega
      unfold readBody
      simp only [List.append_assoc] at hu hl ⊢
      simp only [hu, htype, ne_eq, not_true_eq_false, if_false, hl, hfinal]
    refine ⟨?_, hbody sf, ?_⟩
    · simp only [List.length_append, htag, hpay, List.length_singleton]
    · unfold NewSignatureFile
      simp only [specReaders, specNewStream]
      have := hbody (SignatureFile.mk (Stream.mk 0) [] [] 0 none [])
      simp only [specReaders] at this
      simp only [this]
  · intro tag tail sf hmax htag htype
    have hbody : ∀ sf0 : SignatureFile,
        readBody (specReaders c) c sf0 (tag ++ [c.Sha384WithRsaMaxLength + 1] ++ tail) =
          .error .LengthOutOfBounds := by
      intro sf0
      have hu : readUint32 (tag ++ ([c.Sha384WithRsaMaxLength + 1] ++ tail)) =
          .ok (bigEndian tag, [c.Sha384WithRsaMaxLength + 1] ++ tail) :=
        readUint32_append _ _ htag
      have hbe : bigEndian [c.Sha384WithRsaMaxLength + 1] = c.Sha384WithRsaMaxLength + 1 :=
        bigEndian_singleton _ hmax
      have hl : (specReaders c).LengthAndBytes ([c.Sha384WithRsaMaxLength + 1] ++ tail)
          c.ByteSize c.Sha384WithRsaMaxLength true = .error .LengthOutOfBounds := by
        simp only [specReaders, specLengthAndBytes, hbyte]
        have h1 : ¬ ([c.Sha384WithRsaMaxLength + 1] ++ tail).length < 1 := by simp
        have h2 : c.Sha384WithRsaMaxLength <
            bigEndian (([c.Sha384WithRsaMaxLength + 1] ++ tail).take 1) := by
          show c.Sha384WithRsaMaxLength < bigEndian [c.Sha384WithRsaMaxLength + 1]
          rw [hbe]
          omega
        rw [if_neg h1, if_pos h2]
      unfold readBody
      simp only [List.append_assoc] at hu hl ⊢
      simp only [hu, htype, ne_eq, not_true_eq_false, if_false, hl]
    refine ⟨hbody sf, ?_⟩
    unfold NewSignatureFile
    simp only [specReaders, specNewStream]
    have := hbody (SignatureFile.mk (Stream.mk 0) [] [] 0 none [])
    simp only [specReaders] at this
    simp only [this]
  · intro buffer rest sf h
    unfold NewSignatureFile at h
    simp only [specReaders, specNewStream] at h
    cases hb : readBody (specReaders c) c (SignatureFile.mk (Stream.mk 0) [] [] 0 none [])
        buffer with
    | error e =>
      simp only [specReaders] at hb
      simp [hb] at h
    | ok r =>
      obtain ⟨⟨n, sf'⟩, s2⟩ := r
      have hlen := readBody_spec_signature_length c _ buffer n sf' s2 hb
      simp only [specReaders] at hb
      simp only [hb, Except.ok.injEq, Prod.mk.injEq] at h
      obtain ⟨hsf, _⟩ := h
      rw [← hsf]
      exact hlen

/-- Witness for C14: the legacy block with length byte 3 is decoded with body
length 8, leaving the byte `42` behind it unread; with a maximum of 96 the
length byte 97 is rejected. -/
theorem legacy_block_length_bound_witness :
    NewSignatureFile (specReaders demoConstants) demoConstants
        ([0, 0, 0, 1] ++ [3] ++ [7, 8, 9] ++ [42]) =
      .ok ({ Stream := { BodyLength := 4 + 1 + 3 }, Hash := [], Signature := [7, 8, 9],
             Version := 0, MetadataHash := none, MetadataSignature := [] }, [42]) ∧
    NewSignatureFile (specReaders demoConstantsShort) demoConstantsShort
        ([0, 0, 0, 1] ++ [demoConstantsShort.Sha384WithRsaMaxLength + 1] ++ [7, 8, 9]) =
      .error .LengthOutOfBounds :=
  ⟨((legacy_block_length_bound demoConstants rfl rfl).1 3 [0, 0, 0, 1] [7, 8, 9] [42]
      (SignatureFile.mk (Stream.mk 0) [] [] 0 none [])
      (by decide) (by decide) rfl (by decide) rfl).2.2,
   ((legacy_block_length_bound demoConstantsShort rfl rfl).2.1 [0, 0, 0, 1] [7, 8, 9]
      (SignatureFile.mk (Stream.mk 0) [] [] 0 none [])
      (by decide) rfl (by decide)).2⟩

/-- C15: with 48-byte hashes, `NewV2SignatureFile` fails (with `io.EOF`) on every
buffer of fewer than 49 bytes, so a short hash read never leads to success; it
fails with `ErrorUnexpectedSignatureFileTypeDelimiter` on every buffer of at
least 49 bytes whose 49th byte is not the V2 marker; and whenever it succeeds
the buffer has at least 49 bytes and the returned `Hash` is exactly its first
48 bytes. This holds whatever `reader.LengthAndBytes` does. -/
theorem NewV2SignatureFile_hash_and_marker (rd : Readers) (c : Constants)
    (hsha : c.Sha384Length = 48) (buffer : List Nat) :
    (buffer.length < 49 → NewV2SignatureFile rd c buffer = .error .EOF) ∧
    (49 ≤ buffer.length → buffer[48]? ≠ some c.SignatureFileV2Marker →
      NewV2SignatureFile rd c buffer = .error .ErrorUnexpectedSignatureFileTypeDelimiter) ∧
    (∀ sf rest, NewV2SignatureFile rd c buffer = .ok (sf, rest) →
      49 ≤ buffer.length ∧ sf.Hash = buffer.take 48 ∧ sf.Hash.length = 48) := by
  refine ⟨?_, ?_, ?_⟩
  · intro hshort
    unfold NewV2SignatureFile
    cases buffer with
    | nil => rfl
    | cons a s' =>
      have hdrop : (a :: s').drop 48 = [] := List.drop_eq_nil_of_le (by omega)
      simp only [readerRead, hsha, hdrop, readByte]
  · intro hlong hmark
    unfold NewV2SignatureFile
    cases buffer with
    | nil => simp at hlong
    | cons a s' =>
      have h48 : 48 < (a :: s').length := by omega
      have hdrop : (a :: s').drop 48 = (a :: s')[48] :: (a :: s').drop 49 :=
        List.drop_eq_getElem_cons h48
      have hne : (a :: s')[48] ≠ c.SignatureFileV2Marker := by
        intro heq
        apply hmark
        rw [List.getElem?_eq_getElem h48, heq]
      simp only [readerRead, hsha, hdrop, readByte, ne_eq, hne, not_false_eq_true, if_true]
  · intro sf rest h
    unfold NewV2SignatureFile at h
    cases h1 : readerRead buffer c.Sha384Length with
    | error e => simp [h1] at h
    | ok r1 =>
      obtain ⟨hash, s1⟩ := r1
      simp only [h1] at h
      cases h2 : readByte s1 with
      | error e => simp [h2] at h
      | ok r2 =>
        obtain ⟨m, s2⟩ := r2
        obtain ⟨hlt, hhash, _, _⟩ := readerRead_then_readByte buffer _ hash s1 m s2 h1 h2
        simp only [h2] at h
        split_ifs at h with hm
        cases h3 : rd.LengthAndBytes s2 c.ByteSize c.Sha384WithRsaMaxLength false with
        | error e => simp [h3] at h
        | ok r3 =>
          obtain ⟨⟨n, sig⟩, s3⟩ := r3
          simp only [h3] at h
          split_ifs at h with hlen
          simp only [Except.ok.injEq, Prod.mk.injEq] at h
          obtain ⟨hsf, _⟩ := h
          rw [hsha] at hlt hhash
          rw [← hsf]
          refine ⟨by omega, hhash, ?_⟩
          show hash.length = 48
          rw [hhash, List.length_take]
          omega

/-- Witness for C15: 48 hash bytes alone fail, 48 hash bytes followed by the
byte 4 instead of the marker 3 fail on the delimiter, and the V2 file of the
examples yields its first 48 bytes as hash. -/
theorem NewV2SignatureFile_hash_and_marker_witness :
    NewV2SignatureFile (specReaders demoConstants) demoConstants (demoHashBlock 5)
      = .error .EOF ∧
    NewV2SignatureFile (specReaders demoConstants) demoConstants (demoHashBlock 5 ++ [4, 2, 7, 8])
      = .error .ErrorUnexpectedSignatureFileTypeDelimiter ∧
    (49 ≤ demoV2File.length ∧ demoHashBlock 5 = demoV2File.take 48 ∧
      (demoHashBlock 5).length = 48) :=
  ⟨(NewV2SignatureFile_hash_and_marker (specReaders demoConstants) demoConstants rfl
      (demoHashBlock 5)).1 (by decide),
   (NewV2SignatureFile_hash_and_marker (specReaders demoConstants) demoConstants rfl
      (demoHashBlock 5 ++ [4, 2, 7, 8])).2.1 (by decide) (by decide),
   (NewV2SignatureFile_hash_and_marker (specReaders demoConstants) demoConstants rfl
      demoV2File).2.2
      (SignatureFile.mk (Stream.mk 0) (demoHashBlock 5) [7, 8] 4 none []) [] (by decide)⟩

/-- C16: for every buffer whose first four bytes, read big-endian, differ from
the SHA-384-with-RSA type constant, `readBody` fails with
`ErrorInvalidSignatureFileType`, whatever `reader.LengthAndBytes` would do with
the bytes that follow (it is not called); and `NewSignatureFile` fails with the
same error, returning no signature file, when the bytes left by `NewStream`
start with such a tag. -/
theorem readBody_rejects_other_type (rd : Readers) (c : Constants) :
    (∀ (sf : SignatureFile) (buffer : List Nat), 4 ≤ buffer.length →
      bigEndian (buffer.take 4) ≠ c.Sha384WithRsaType →
      readBody rd c sf buffer = .error .ErrorInvalidSignatureFileType) ∧
    (∀ (buffer : List Nat) (stream : Stream) (rest : List Nat),
      rd.NewStream buffer = .ok (stream, rest) → 4 ≤ rest.length →
      bigEndian (rest.take 4) ≠ c.Sha384WithRsaType →
      NewSignatureFile rd c buffer = .error .ErrorInvalidSignatureFileType) := by
  have hbody : ∀ (sf : SignatureFile) (buffer : List Nat), 4 ≤ buffer.length →
      bigEndian (buffer.take 4) ≠ c.Sha384WithRsaType →
      readBody rd c sf buffer = .error .ErrorInvalidSignatureFileType := by
    intro sf buffer h4 hne
    unfold readBody
    simp only [readUint32_of_length buffer h4, ne_eq, hne, not_false_eq_true, if_true]
  refine ⟨hbody, ?_⟩
  intro buffer stream rest hs h4 hne
  unfold NewSignatureFile
  simp only [hs, hbody _ rest h4 hne]

/-- Witness for C16: a legacy block whose type tag is 2 instead of 1. -/
theorem readBody_rejects_other_type_witness :
    readBody (specReaders demoConstants) demoConstants
        (SignatureFile.mk (Stream.mk 0) [] [] 0 none []) [0, 0, 0, 2, 3, 7, 8, 9]
      = .error .ErrorInvalidSignatureFileType ∧
    NewSignatureFile (specReaders demoConstants) demoConstants [0, 0, 0, 2, 3, 7, 8, 9]
      = .error .ErrorInvalidSignatureFileType :=
  ⟨(readBody_rejects_other_type (specReaders demoConstants) demoConstants).1 _
      [0, 0, 0, 2, 3, 7, 8, 9] (by decide) (by decide),
   (readBody_rejects_other_type (specReaders demoConstants) demoConstants).2
      [0, 0, 0, 2, 3, 7, 8, 9] (Stream.mk 0) [0, 0, 0, 2, 3, 7, 8, 9] rfl (by decide)
      (by decide)⟩

/-! ## Further lemmas on `verifySignature` and the loop -/

theorem verifySignature_returns_of_returns (cr : Crypto) (key : String)
    (hash sig hash' sig' : List Nat) (b : Bool)
    (h : verifySignature cr key hash sig = .ret b) :
    verifySignature cr key hash' sig' = .ret true ∨
      verifySignature cr key hash' sig' = .ret false := by
  cases hd : hexDecodeString key with
  | error e => simp [verifySignature, hd]
  | ok pkBytes =>
    cases hp : cr.ParsePKIXPublicKey pkBytes with
    | error e => simp [verifySignature, hd, hp]
    | ok pk =>
      cases pk with
      | nonRsa => simp [verifySignature, hd, hp] at h
      | rsa k =>
        cases hv : cr.VerifyPKCS1v15 k (cr.Sum384 hash') sig' with
        | none => simp [verifySignature, hd, hp, hv]
        | some e => simp [verifySignature, hd, hp, hv]

theorem verifySignature_invalid_key (cr : Crypto) (key : String) (hash sig : List Nat) :
    (∀ e, hexDecodeString key = .error e → verifySignature cr key hash sig = .ret false) ∧
    (∀ pkBytes e, hexDecodeString key = .ok pkBytes → cr.ParsePKIXPublicKey pkBytes = .error e →
      verifySignature cr key hash sig = .ret false) := by
  constructor
  · intro e he
    simp only [verifySignature, he]
  · intro pkBytes e hd hp
    simp only [verifySignature, hd, hp]

theorem rangeLoop_metadata_failure (cr : Crypto) (keys : List (String × String))
    (l : List (String × SignatureFile)) (st : LoopState)
    (hcontent : ∀ e ∈ l,
      verifySignature cr (mapGet keys "" e.1) e.2.Hash e.2.Signature = .ret true)
    (hex : ∃ e ∈ l, ∃ mh, e.2.MetadataHash = some mh ∧
      verifySignature cr (mapGet keys "" e.1) mh e.2.MetadataSignature = .ret false) :
    rangeLoop cr keys l st = .returned ("", some .ErrorVerifyMetadataSignature) := by
  induction l generalizing st with
  | nil =>
    obtain ⟨e, he, _⟩ := hex
    cases he
  | cons a rest ih =>
    have ha := hcontent a (List.mem_cons_self _ _)
    have hrest : ∀ e ∈ rest,
        verifySignature cr (mapGet keys "" e.1) e.2.Hash e.2.Signature = .ret true :=
      fun e he => hcontent e (List.mem_cons_of_mem _ he)
    cases hm : a.2.MetadataHash with
    | none =>
      have hbody : loopBody cr keys st a = .next (tally st a.1 a.2) := by
        simp [loopBody, ha, hm]
      simp only [rangeLoop, hbody]
      apply ih _ hrest
      obtain ⟨e, he, mh, hmh, hf⟩ := hex
      rcases List.mem_cons.mp he with heq | hmem
      · subst heq
        rw [hm] at hmh
        cases hmh
      · exact ⟨e, hmem, mh, hmh, hf⟩
    | some mh0 =>
      rcases verifySignature_returns_of_returns cr (mapGet keys "" a.1) a.2.Hash a.2.Signature
        mh0 a.2.MetadataSignature true ha with ht | hf0
      · have hbody : loopBody cr keys st a = .next (tally st a.1 a.2) := by
          simp [loopBody, ha, hm, ht]
        simp only [rangeLoop, hbody]
        apply ih _ hrest
        obtain ⟨e, he, mh, hmh, hf⟩ := hex
        rcases List.mem_cons.mp he with heq | hmem
        · subst heq
          rw [hm] at hmh
          cases hmh
          rw [ht] at hf
          cases hf
        · exact ⟨e, hmem, mh, hmh, hf⟩
      · simp [rangeLoop, loopBody, ha, hm, hf0]

theorem attestCount_block (h h' : String) (blk : List (String × SignatureFile))
    (hblk : ∀ e ∈ blk, hexEncodeToString e.2.Hash = h) :
    attestCount h' blk = if h' = h then blk.length else 0 := by
  induction blk with
  | nil => simp [attestCount]
  | cons a rest ih =>
    have ha := hblk a (List.mem_cons_self _ _)
    have hrest := ih (fun e he => hblk e (List.mem_cons_of_mem _ he))
    have hsplit : attestCount h' (a :: rest) = attestCount h' [a] + attestCount h' rest :=
      attestCount_append h' [a] rest
    rw [hsplit, hrest, attestCount_singleton, ha]
    by_cases hh : h' = h
    · subst hh
      simp only [if_true, List.length_cons]
      omega
    · have hh' : ¬ h = h' := fun x => hh x.symm
      simp only [if_neg hh, if_neg hh']

theorem tracked_of_leading_block (blk rest : List (String × SignatureFile)) (h : String)
    (hblk : ∀ e ∈ blk, hexEncodeToString e.2.Hash = h) (h2 : 2 ≤ blk.length)
    (hmax : ∀ h', attestCount h' (blk ++ rest) ≤ blk.length) :
    (tallyAll initState (blk ++ rest)).consensusHash = h ∧
      (tallyAll initState (blk ++ rest)).maxHashCount = blk.length := by
  obtain ⟨_, hb, ht⟩ := inv_final (blk ++ rest)
  have hcnt_blk : attestCount h blk = blk.length := by
    rw [attestCount_block h h blk hblk, if_pos rfl]
  have hge : blk.length ≤ attestCount h (blk ++ rest) := by
    rw [attestCount_append, hcnt_blk]
    omega
  rcases ht with ⟨h0, _⟩ | ⟨hM, hcnt, pre, x, post, hsplit, hx, _, hlt⟩
  · have := hb h
    rw [h0] at this
    simp at this
    omega
  · have hM1 : blk.length ≤ (tallyAll initState (blk ++ rest)).maxHashCount := by
      rcases le_max_iff.mp (hb h) with h3 | h3 <;> omega
    have hM2 : (tallyAll initState (blk ++ rest)).maxHashCount ≤ blk.length := by
      rw [← hcnt]
      exact hmax _
    have hMeq : (tallyAll initState (blk ++ rest)).maxHashCount = blk.length := by omega
    refine ⟨?_, hMeq⟩
    rcases List.append_eq_append_iff.mp hsplit with ⟨a', hpre, _⟩ | ⟨c', hblk', hpost⟩
    · exfalso
      have := hlt h
      rw [hpre, attestCount_append, hcnt_blk] at this
      omega
    · cases c' with
      | nil =>
        exfalso
        have hpre : blk = pre := by simpa using hblk'
        have := hlt h
        rw [← hpre, hcnt_blk] at this
        omega
      | cons y c'' =>
        have hxy : x = y := by
          simp only [List.cons_append, List.cons.injEq] at hpost
          exact hpost.1
        have hmem : y ∈ blk := by
          rw [hblk']
          simp
        rw [← hx, hxy]
        exact hblk y hmem

theorem Verify_outcomes (cr : Crypto) (ps : Parsers) (txId : String) (payload : List Nat) :
    Verify cr ps txId payload = .panic ∨
    Verify cr ps txId payload = .ret (true, none) ∨
    ∃ e, Verify cr ps txId payload = .ret (false, some e) := by
  cases h1 : ps.NewStateProof payload with
  | error e => exact Or.inr (Or.inr ⟨e, by simp only [Verify, h1]⟩)
  | ok sp =>
    cases h2 : ps.ParseAddressBooks sp.AddressBooks with
    | error e => exact Or.inr (Or.inr ⟨e, by simp only [Verify, h1, h2]⟩)
    | ok keys =>
      cases h3 : ps.ParseSignatureFiles sp.SignatureFiles with
      | error e => exact Or.inr (Or.inr ⟨e, by simp only [Verify, h1, h2, h3]⟩)
      | ok sigs =>
        cases h4 : ps.ParseRecordFile sp.RecordFile with
        | error e => exact Or.inr (Or.inr ⟨e, by simp only [Verify, h1, h2, h3, h4]⟩)
        | ok rf =>
          cases h5 : mapGet rf.TransactionsMap none (normalizeTxId txId) with
          | none =>
            exact Or.inr (Or.inr ⟨.ErrorTransactionNotFound,
              by simp only [Verify, h1, h2, h3, h4, h5]⟩)
          | some t =>
            cases h6 : performStateProof cr keys sigs rf.Hash with
            | panic => exact Or.inl (by simp only [Verify, h1, h2, h3, h4, h5, h6])
            | ret r =>
              cases r with
              | none => exact Or.inr (Or.inl (by simp only [Verify, h1, h2, h3, h4, h5, h6]))
              | some e =>
                exact Or.inr (Or.inr ⟨e, by simp only [Verify, h1, h2, h3, h4, h5, h6]⟩)

theorem Verify_true_iff (cr : Crypto) (ps : Parsers) (txId : String) (payload : List Nat) :
    Verify cr ps txId payload = .ret (true, none) ↔
      ∃ sp keys sigs rf, ps.NewStateProof payload = .ok sp ∧
        ps.ParseAddressBooks sp.AddressBooks = .ok keys ∧
        ps.ParseSignatureFiles sp.SignatureFiles = .ok sigs ∧
        ps.ParseRecordFile sp.RecordFile = .ok rf ∧
        mapGet rf.TransactionsMap none (normalizeTxId txId) ≠ none ∧
        performStateProof cr keys sigs rf.Hash = .ret none := by
  constructor
  · intro h
    unfold Verify at h
    cases h1 : ps.NewStateProof payload with
    | error e => simp [h1] at h
    | ok sp =>
      cases h2 : ps.ParseAddressBooks sp.AddressBooks with
      | error e => simp [h1, h2] at h
      | ok keys =>
        cases h3 : ps.ParseSignatureFiles sp.SignatureFiles with
        | error e => simp [h1, h2, h3] at h
        | ok sigs =>
          cases h4 : ps.ParseRecordFile sp.RecordFile with
          | error e => simp [h1, h2, h3, h4] at h
          | ok rf =>
            cases h5 : mapGet rf.TransactionsMap none (normalizeTxId txId) with
            | none => simp [h1, h2, h3, h4, h5] at h
            | some t =>
              cases h6 : performStateProof cr keys sigs rf.Hash with
              | panic => simp [h1, h2, h3, h4, h5, h6] at h
              | ret r =>
                cases r with
                | some e => simp [h1, h2, h3, h4, h5, h6] at h
                | none => exact ⟨sp, keys, sigs, rf, rfl, h2, h3, h4, by simp [h5], h6⟩
  · rintro ⟨sp, keys, sigs, rf, h1, h2, h3, h4, h5, h6⟩
    cases h5' : mapGet rf.TransactionsMap none (normalizeTxId txId) with
    | none => exact absurd h5' h5
    | some t => simp only [Verify, h1, h2, h3, h4, h5', h6]

/-! ## The claims on `Verify`, the metadata check, ties and totality -/

/-- C11, at the failing input: the parsers succeed, the transaction is in the
record file, and the address book gives node `0.0.3` a public key that parses
as a key of another algorithm than RSA; `Verify` then panics instead of
returning `(true, nil)` or `(false, e)`. -/
theorem Verify_panics_on_non_rsa_key :
    Verify demoCrypto demoParsersNonRsa "0.0.100@1614556800.123456789" [1] = .panic := by
  decide

/-- C17: when the content signatures of all artifacts verify and some artifact
has a metadata hash whose metadata signature fails verification under the same
node's key, `verifySignatures` returns `ErrorVerifyMetadataSignature` in every
processing order; and an artifact without metadata hash goes on to the tally
without a metadata check, whatever its metadata signature is. -/
theorem verifySignatures_bad_metadata_fails (cr : Crypto) (keys : List (String × String))
    (sigs : List (String × SignatureFile))
    (hcontent : ∀ e ∈ sigs,
      verifySignature cr (mapGet keys "" e.1) e.2.Hash e.2.Signature = .ret true) :
    ((∃ e ∈ sigs, ∃ mh, e.2.MetadataHash = some mh ∧
        verifySignature cr (mapGet keys "" e.1) mh e.2.MetadataSignature = .ret false) →
      ∀ order : List (String × SignatureFile), order.Perm sigs →
        verifySignatures cr keys order = .ret ("", some .ErrorVerifyMetadataSignature)) ∧
    (∀ e ∈ sigs, e.2.MetadataHash = none →
      ∀ st, loopBody cr keys st e = .next (tally st e.1 e.2)) := by
  constructor
  · rintro ⟨bad, hmem, mh, hmh, hf⟩ order hperm
    have hloop : rangeLoop cr keys order initState =
        .returned ("", some .ErrorVerifyMetadataSignature) := by
      apply rangeLoop_metadata_failure
      · exact fun e he => hcontent e (hperm.mem_iff.mp he)
      · exact ⟨bad, hperm.mem_iff.mpr hmem, mh, hmh, hf⟩
    simp only [verifySignatures, hloop]
  · intro e he hnone st
    simp [loopBody, hcontent e he, hnone]

/-- Witness for C17: the three artifacts of `demoSigsBadMetadata` in reverse
order, and the first of them, which has no metadata hash. -/
theorem verifySignatures_bad_metadata_fails_witness :
    verifySignatures demoCrypto demoKeys demoSigsBadMetadata.reverse
      = .ret ("", some .ErrorVerifyMetadataSignature) ∧
    loopBody demoCrypto demoKeys initState
        ("0.0.3", { demoFile 1 [1] with MetadataSignature := [9, 9] })
      = .next (tally initState "0.0.3" { demoFile 1 [1] with MetadataSignature := [9, 9] }) :=
  ⟨(verifySignatures_bad_metadata_fails demoCrypto demoKeys demoSigsBadMetadata
      (by decide)).1
      ⟨("0.0.5", { demoFileV5 3 [1] [7] with MetadataSignature := [0] }), by decide, [7],
        rfl, by decide⟩
      _ (List.reverse_perm _),
   (verifySignatures_bad_metadata_fails demoCrypto demoKeys demoSigsBadMetadata
      (by decide)).2 _ (by decide) rfl initState⟩

/-- C18: for nine verifying artifacts split 3/3/3 over three hashes with
different hex encodings, the order that processes the three artifacts of the
first hash first returns the first hash, and the order of the same artifacts
that processes the three of the second hash first returns the second hash: the
result depends on the processing order. -/
theorem verifySignatures_tie_depends_on_order (cr : Crypto) (keys : List (String × String))
    (xs ys zs : List (String × SignatureFile)) (hA hB hC : String)
    (hlenA : xs.length = 3) (hlenB : ys.length = 3) (hlenC : zs.length = 3)
    (hasA : ∀ e ∈ xs, hexEncodeToString e.2.Hash = hA)
    (hbsB : ∀ e ∈ ys, hexEncodeToString e.2.Hash = hB)
    (hcsC : ∀ e ∈ zs, hexEncodeToString e.2.Hash = hC)
    (hAB : hA ≠ hB) (hAC : hA ≠ hC) (hBC : hB ≠ hC)
    (hall : ∀ e ∈ xs ++ ys ++ zs, Passes cr keys e) :
    (ys ++ xs ++ zs).Perm (xs ++ ys ++ zs) ∧
    verifySignatures cr keys (xs ++ ys ++ zs) = .ret (hA, none) ∧
    verifySignatures cr keys (ys ++ xs ++ zs) = .ret (hB, none) ∧
    verifySignatures cr keys (xs ++ ys ++ zs) ≠ verifySignatures cr keys (ys ++ xs ++ zs) := by
  have hperm : (ys ++ xs ++ zs).Perm (xs ++ ys ++ zs) :=
    List.Perm.append_right zs List.perm_append_comm
  have hcount : ∀ h', attestCount h' (xs ++ ys ++ zs) ≤ 3 := by
    intro h'
    rw [attestCount_append, attestCount_append, attestCount_block hA h' xs hasA,
      attestCount_block hB h' ys hbsB, attestCount_block hC h' zs hcsC, hlenA, hlenB, hlenC]
    by_cases h1 : h' = hA
    · subst h1
      rw [if_pos rfl, if_neg hAB, if_neg hAC]
    · by_cases h2 : h' = hB
      · subst h2
        rw [if_neg h1, if_pos rfl, if_neg hBC]
      · rw [if_neg h1, if_neg h2]
        split_ifs <;> omega
  have hlen1 : (xs ++ ys ++ zs).length = 9 := by
    simp only [List.length_append, hlenA, hlenB, hlenC]
  have hlen2 : (ys ++ xs ++ zs).length = 9 := by rw [hperm.length_eq, hlen1]
  have hall2 : ∀ e ∈ ys ++ xs ++ zs, Passes cr keys e :=
    fun e he => hall e (hperm.mem_iff.mp he)
  have hfirst : verifySignatures cr keys (xs ++ ys ++ zs) = .ret (hA, none) := by
    obtain ⟨hh, hM⟩ := tracked_of_leading_block xs (ys ++ zs) hA hasA (by omega)
      (by
        intro h'
        rw [← List.append_assoc, hlenA]
        exact hcount h')
    rw [← List.append_assoc] at hh hM
    rw [verifySignatures_of_passes cr keys _ (by rw [hlen1]; decide) hall, hlen1, hh, hM,
      hlenA]
    rfl
  have hsecond : verifySignatures cr keys (ys ++ xs ++ zs) = .ret (hB, none) := by
    obtain ⟨hh, hM⟩ := tracked_of_leading_block ys (xs ++ zs) hB hbsB (by omega)
      (by
        intro h'
        rw [← List.append_assoc, hlenB, attestCount_perm h' hperm]
        exact hcount h')
    rw [← List.append_assoc] at hh hM
    rw [verifySignatures_of_passes cr keys _ (by rw [hlen2]; decide) hall2, hlen2, hh, hM,
      hlenB]
    rfl
  refine ⟨hperm, hfirst, hsecond, ?_⟩
  rw [hfirst, hsecond]
  intro heq
  simp only [Go.ret.injEq, Prod.mk.injEq, and_true] at heq
  exact hAB heq

/-- Witness for C18: the nine artifacts of `demoSigs9`; with the three for `01`
first the result is `01`, with the three for `02` first it is `02`. -/
theorem verifySignatures_tie_depends_on_order_witness :
    verifySignatures demoCrypto demoKeys
        (demoSigs9.take 3 ++ (demoSigs9.drop 3).take 3 ++ demoSigs9.drop 6)
      = .ret ("01", none) ∧
    verifySignatures demoCrypto demoKeys
        ((demoSigs9.drop 3).take 3 ++ demoSigs9.take 3 ++ demoSigs9.drop 6)
      = .ret ("02", none) :=
  ⟨(verifySignatures_tie_depends_on_order demoCrypto demoKeys (demoSigs9.take 3)
      ((demoSigs9.drop 3).take 3) (demoSigs9.drop 6) "01" "02" "03" rfl rfl rfl
      (by decide) (by decide) (by decide) (by decide) (by decide) (by decide)
      (by decide)).2.1,
   (verifySignatures_tie_depends_on_order demoCrypto demoKeys (demoSigs9.take 3)
      ((demoSigs9.drop 3).take 3) (demoSigs9.drop 6) "01" "02" "03" rfl rfl rfl
      (by decide) (by decide) (by decide) (by decide) (by decide) (by decide)
      (by decide)).2.2.1⟩

/-- C19: whenever `verifySignatures` returns a non-empty hash `h` with no error
for `n` artifacts (fewer than `2 ^ 53`), every artifact passed its signature
check and, when it has a metadata hash, its metadata check; the number of
artifacts whose hex-encoded hash is `h` is at least 2 and at least `n / 3`
rounded down; and no hash is attested by more artifacts than `h`. -/
theorem verifySignatures_result_invariant (cr : Crypto) (keys : List (String × String))
    (sigs : List (String × SignatureFile)) (h : String)
    (hlen : sigs.length < 2 ^ 53)
    (hret : verifySignatures cr keys sigs = .ret (h, none)) (hne : h ≠ "") :
    (∀ e ∈ sigs, Passes cr keys e) ∧
    2 ≤ attestCount h sigs ∧ sigs.length / 3 ≤ attestCount h sigs ∧
    ∀ h', attestCount h' sigs ≤ attestCount h sigs := by
  obtain ⟨hall, _⟩ := verifySignatures_ok_inv cr keys sigs h hret
  rw [verifySignatures_of_passes cr keys sigs hlen hall] at hret
  obtain ⟨_, hb, ht⟩ := inv_final sigs
  split_ifs at hret with hthr
  · simp only [Go.ret.injEq, Prod.mk.injEq, and_true] at hret
    rcases ht with ⟨_, hs⟩ | ⟨hM, hcnt, _⟩
    · exact absurd (hret ▸ hs) hne
    · rw [hret] at hcnt
      rw [hcnt]
      refine ⟨hall, hM, hthr, ?_⟩
      intro h'
      rcases le_max_iff.mp (hb h') with h3 | h3 <;> omega
  · simp only [Go.ret.injEq, Prod.mk.injEq, and_true] at hret
    exact absurd hret.symm hne

/-- Witness for C19: the ten artifacts split 4/3/3, for which `01` is returned. -/
theorem verifySignatures_result_invariant_witness :
    (∀ e ∈ demoSigs10, Passes demoCrypto demoKeys e) ∧
    2 ≤ attestCount "01" demoSigs10 ∧ demoSigs10.length / 3 ≤ attestCount "01" demoSigs10 ∧
    ∀ h', attestCount h' demoSigs10 ≤ attestCount "01" demoSigs10 :=
  verifySignatures_result_invariant demoCrypto demoKeys demoSigs10 "01"
    (by decide) (by decide) (by decide)

/-- C20, at the failing inputs: when the key string is valid hex and its bytes
parse as a public key of another algorithm than RSA, `verifySignature` panics at
the type assertion instead of returning false. -/
theorem verifySignature_panics_on_non_rsa_key (cr : Crypto) (publicKeyString : String)
    (pkBytes hash sig : List Nat)
    (hhex : hexDecodeString publicKeyString = .ok pkBytes)
    (hparse : cr.ParsePKIXPublicKey pkBytes = .ok .nonRsa) :
    verifySignature cr publicKeyString hash sig = .panic := by
  simp only [verifySignature, hhex, hparse]

/-- Witness for C20: the key string `31` under `demoCrypto`. -/
theorem verifySignature_panics_on_non_rsa_key_witness :
    verifySignature demoCrypto "31" [1] [1, 1] = .panic :=
  verifySignature_panics_on_non_rsa_key demoCrypto "31" [49] [1] [1, 1] (by decide) rfl

end Stateproof
